import Mathlib

/-!
# Verification of the Sentinel state machine (`src/sentinel.ino`)

A shallow embedding of the Arduino sketch `sentinel.ino` as pure Lean
functions, together with theorems about its state machine, tilt edge
detector, button handling, telemetry and random number generator.

Modelling conventions:
* `millis()` is modelled as a monotonically increasing `Nat` timestamp that is
  an input of every tick (the 32-bit wraparound of `millis()` after 49.7 days
  is outside the model; the spec stipulates a monotonic millisecond clock).
* Pin reads performed during one pass of `loop()` are modelled as a single
  per-tick input record: `tiltAct` is the polarity-adjusted tilt activity
  (`TILT_INVERTED` folded in: with `raw == LOW` meaning active and the
  inversion applied, activity equals the raw pin level), `btnHigh` is the raw
  button level (`false` = `LOW` = pressed), and `pot` is `analogRead(PIN_POT)`.
* Unsigned C arithmetic on timestamps appears as truncated `Nat` subtraction
  in `elapsed`; `uint32_t` RNG arithmetic is `Nat` arithmetic `% 2 ^ 32`.
* Side effects (LED writes, tone commands, serial prints) are collected in an
  output list `List Out` returned by each tick.
-/

namespace Sentinel

/-- The state enumeration `enum State` of the source. -/
inductive State where
  | IDLE
  | ALERT
  | ANGRY
  | COOLDOWN
  | REWARD
  | LOCKED
deriving DecidableEq

/-- `MAX_ANGER` from the source. -/
def MAX_ANGER : Nat := 3

/-- `MIN_STATE_MS` from the source. -/
def MIN_STATE_MS : Nat := 200

/-- `ALERT_TIMEOUT_MS` from the source. -/
def ALERT_TIMEOUT_MS : Nat := 10000

/-- `COOLDOWN_MS` from the source. -/
def COOLDOWN_MS : Nat := 10000

/-- `ANGRY_CALM_MS` from the source. -/
def ANGRY_CALM_MS : Nat := 15000

/-- `REWARD_MS` from the source. -/
def REWARD_MS : Nat := 8000

/-- `IDLE_REWARD_MIN_MS` from the source. -/
def IDLE_REWARD_MIN_MS : Nat := 5000

/-- `IDLE_REWARD_MAX_MS` from the source. -/
def IDLE_REWARD_MAX_MS : Nat := 20000

/-- `TILT_DB_IDLE_MS` from the source. -/
def TILT_DB_IDLE_MS : Nat := 5

/-- `TILT_DB_OTHER_MS` from the source. -/
def TILT_DB_OTHER_MS : Nat := 14

/-- `TILT_REARM_MS` from the source. -/
def TILT_REARM_MS : Nat := 140

/-- `ANGRY_BLINK_MS` from the source. -/
def ANGRY_BLINK_MS : Nat := 200

/-- `ANGRY_BEEP_MS` from the source. -/
def ANGRY_BEEP_MS : Nat := 120

/-- `ANGRY_BEEP_DUR_MS` from the source. -/
def ANGRY_BEEP_DUR_MS : Nat := 35

/-- `ANGRY_BEEP_HZ` from the source. -/
def ANGRY_BEEP_HZ : Nat := 220

/-- `LOCKED_TONE_HZ` from the source. -/
def LOCKED_TONE_HZ : Nat := 140

/-- The C helper `elapsed(t0, ms) = (millis() - t0) >= ms`, with the current
clock made explicit. On a monotonic clock (`t0 ≤ now`, maintained for every
stored timestamp of a reachable state) the truncated `Nat` subtraction agrees
with the unsigned C subtraction. -/
def elapsed (now t0 ms : Nat) : Prop := ms ≤ now - t0

instance (now t0 ms : Nat) : Decidable (elapsed now t0 ms) :=
  inferInstanceAs (Decidable (ms ≤ now - t0))

/-- Arduino's `map(x, inMin, inMax, outMin, outMax)`
(`(x - in_min) * (out_max - out_min) / (in_max - in_min) + out_min` on `long`).
For the in-range arguments used here (`inMin ≤ x`, `outMin ≤ outMax`) the
`Nat` arithmetic coincides with the signed `long` arithmetic. -/
def mapRange (x inMin inMax outMin outMax : Nat) : Nat :=
  (x - inMin) * (outMax - outMin) / (inMax - inMin) + outMin

/-- The patience window computed each tick in `loop()`:
`map(analogRead(PIN_POT), 0, 1023, IDLE_REWARD_MIN_MS, IDLE_REWARD_MAX_MS)`. -/
def patienceOf (pot : Nat) : Nat :=
  mapRange pot 0 1023 IDLE_REWARD_MIN_MS IDLE_REWARD_MAX_MS

/-- `2 ^ 32`, the modulus of `uint32_t` arithmetic. -/
def U32 : Nat := 2 ^ 32

/-- One call of `rng()`: the xorshift32 update of `rngState`
(`x ^= x << 13; x ^= x >> 17; x ^= x << 5;` on `uint32_t`). -/
def rngStep (x : Nat) : Nat :=
  let a := x ^^^ ((x <<< 13) % U32)
  let b := a ^^^ (a >>> 17)
  b ^^^ ((b <<< 5) % U32)

/-- The boot seeding in `setup()`:
`rngState = 0xA5A5A5A5; rngState ^= (uint32_t)analogRead(PIN_POT) << 16;
rngState ^= (uint32_t)analogRead(PIN_POT);` with the two analog readings
`a` and `b`. -/
def bootSeed (a b : Nat) : Nat :=
  (0xA5A5A5A5 ^^^ ((a <<< 16) % U32)) ^^^ b

/-- `pick3`: selects one of three phrases from a fresh `rng()` value `r`
(`switch (rng() % 3)`). -/
def pick3 (r : Nat) (a b c : String) : String :=
  if r % 3 = 0 then a else if r % 3 = 1 then b else c

/-- `pick4`: selects one of four phrases from a fresh `rng()` value `r`
(`switch (rng() % 4)`). -/
def pick4 (r : Nat) (a b c d : String) : String :=
  if r % 4 = 0 then a else if r % 4 = 1 then b else if r % 4 = 2 then c else d

/-- `compliment()`. The em-dash of the first phrase is transcribed as the
verbatim bytes of the source file; the apostrophe of the fourth phrase is
transcribed as a typographic apostrophe. -/
def compliment (r : Nat) : String :=
  pick4 r
    "Nice work â€” your patience is strong."
    "You did great. Thanks for staying calm."
    "That was impressive self-control."
    "You’re doing awesome. Keep it up."

/-- The observable effects of a tick: serial lines and actuator commands.
`human s msg` is `printStateMsg` (the `[<STATE>] <msg>` line), `stat` is
`printStatLine` (the `@STAT ...` line), `ledsOut r y g` is `leds(r,y,g)`,
`ledR` is the lone red-LED write of `angryEffectsTick`, `toneOn` is a
continuous `tone`, `toneShot` a one-shot `tone`, `toneOff` is `noTone`. -/
inductive Out where
  | human (s : State) (msg : String)
  | stat (s : State) (anger : Nat) (patienceMs : Nat)
  | ledsOut (r y g : Bool)
  | ledR (isOn : Bool)
  | toneOn (hz : Nat)
  | toneShot (hz dur : Nat)
  | toneOff
deriving DecidableEq

/-- Serial lines among the outputs (`Serial.print` traffic). -/
def isSerial : Out → Bool
  | .human _ _ => true
  | .stat _ _ _ => true
  | _ => false

/-- `@STAT` lines among the outputs. -/
def isStat : Out → Bool
  | .stat _ _ _ => true
  | _ => false

/-- `struct TiltEdge` of the source. `inactiveSince = 0` is the source's
sentinel for "no inactivity run being tracked". -/
structure TiltEdge where
  lastRawAct : Bool
  changedAt : Nat
  armed : Bool
  inactiveSince : Nat
deriving DecidableEq

/-- The state-dependent debounce window selected inside `TiltEdge::event`. -/
def needDb (s : State) : Nat :=
  if s = State.IDLE then TILT_DB_IDLE_MS else TILT_DB_OTHER_MS

/-- `TiltEdge::reset()`: disarm, clear inactivity tracking, resynchronize
`lastRawAct` to the current raw activity, stamp `changedAt = millis()`. -/
def TiltEdge.reset (act : Bool) (now : Nat) : TiltEdge :=
  { armed := false, inactiveSince := 0, lastRawAct := act, changedAt := now }

/-- `TiltEdge::event(currentState)`: returns the fired flag and the updated
detector. `act` is the polarity-adjusted raw activity read this tick. -/
def TiltEdge.event (te : TiltEdge) (s : State) (now : Nat) (act : Bool) :
    Bool × TiltEdge :=
  let te1 :=
    if act ≠ te.lastRawAct then { te with lastRawAct := act, changedAt := now }
    else te
  if ¬ elapsed now te1.changedAt (needDb s) then (false, te1)
  else
    let te2 :=
      if act = false then
        let teA :=
          if te1.inactiveSince = 0 then { te1 with inactiveSince := now }
          else te1
        if teA.armed = false ∧ elapsed now teA.inactiveSince TILT_REARM_MS then
          { teA with armed := true }
        else teA
      else { te1 with inactiveSince := 0 }
    if te2.armed = true ∧ act = true then (true, { te2 with armed := false })
    else (false, te2)

/-- The fire timestamps produced by folding `TiltEdge::event` over a list of
polls `(now, act)`. -/
def fireTimes (te : TiltEdge) (s : State) : List (Nat × Bool) → List Nat
  | [] => []
  | (n, act) :: rest =>
    let r := te.event s n act
    if r.1 = true then n :: fireTimes r.2 s rest else fireTimes r.2 s rest

/-- The edge-synchronization prefix of `TiltEdge::event`: a raw change
re-stamps `changedAt` and records the new raw value, before the debounce
check. -/
def TiltEdge.sync (te : TiltEdge) (now : Nat) (act : Bool) : TiltEdge :=
  if act ≠ te.lastRawAct then { te with lastRawAct := act, changedAt := now }
  else te

/-- Whether a poll `(now, act)` passes the state-dependent debounce check of
`TiltEdge::event`: the edge-synchronized reading has been stable for the
full `needDb` window. A poll failing this check takes the early
`return false` and is not treated as a stable observation. -/
def stablePoll (te : TiltEdge) (s : State) (now : Nat) (act : Bool) : Bool :=
  decide (elapsed now (te.sync now act).changedAt (needDb s))

/-- The detector state left behind by folding `TiltEdge::event` over a poll
trace. -/
def runTilt (te : TiltEdge) (s : State) : List (Nat × Bool) → TiltEdge
  | [] => te
  | (n, act) :: rest => runTilt (te.event s n act).2 s rest

/-- Over a poll trace, every poll that passes the debounce check observes
the sensor inactive: the detector sees only stable inactivity (raw active
blips shorter than the debounce window are never stable observations and
do not clear `inactiveSince`). -/
def quietStable (te : TiltEdge) (s : State) : List (Nat × Bool) → Bool
  | [] => true
  | (n, act) :: rest =>
    (!stablePoll te s n act || !act) && quietStable (te.event s n act).2 s rest

/-- The whole mutable state of the sketch: the globals `state`, `anger`,
`enteredAt`, `nextBlinkAt`, `nextBeepAt`, `angryRedOn`, `tilt`, `rngState`,
the statics of `buttonPressEvent` (`stable`, `lastRaw`, `changedAt`) and the
static `holdAt` of the `LOCKED` case (`0` = no hold in progress). Button
levels are `true` = `HIGH`; pressed is `LOW` = `false`. -/
structure Machine where
  state : State
  anger : Nat
  enteredAt : Nat
  nextBlinkAt : Nat
  nextBeepAt : Nat
  angryRedOn : Bool
  tilt : TiltEdge
  btnStable : Bool
  btnLastRaw : Bool
  btnChangedAt : Nat
  holdAt : Nat
  rngState : Nat
deriving DecidableEq

/-- Per-tick inputs: the clock and the three pin reads of one `loop()` pass. -/
structure Inputs where
  now : Nat
  tiltAct : Bool
  btnHigh : Bool
  pot : Nat
deriving DecidableEq

/-- One call of `rng()` against the machine's `rngState`. -/
def rngNext (m : Machine) : Nat × Machine :=
  let r := rngStep m.rngState
  (r, { m with rngState := r })

/-- `buttonPressEvent()`: classic stable-value debounce over the statics
`stable`, `lastRaw`, `changedAt`; reports a press when a newly accepted
stable value is `LOW`. -/
def buttonPress (m : Machine) (now : Nat) (raw : Bool) : Bool × Machine :=
  let m1 :=
    if raw ≠ m.btnLastRaw then { m with btnLastRaw := raw, btnChangedAt := now }
    else m
  if elapsed now m1.btnChangedAt 25 ∧ raw ≠ m1.btnStable then
    (raw == false, { m1 with btnStable := raw })
  else (false, m1)

/-- `showBaseLEDs()` as the written pattern for a given state. -/
def baseLeds (s : State) : Out :=
  match s with
  | .IDLE => .ledsOut false false true
  | .ALERT => .ledsOut false true false
  | .COOLDOWN => .ledsOut false true false
  | .REWARD => .ledsOut false true true
  | .ANGRY => .ledsOut true false false
  | .LOCKED => .ledsOut true false false

/-- `enter(next, msg, beepHz, beepDur, patienceMs)`: the single entry action
of the state machine. Emits in source order: `noTone` unless entering
`LOCKED`; the base LED pattern; the forced alarm LEDs and continuous alarm
tone when entering `LOCKED`, else the one-shot tone when `beepHz > 0`; then
the telemetry pair `printStateMsg(msg)` / `printStatLine(patienceMs)`. -/
def enter (m : Machine) (next : State) (msg : String) (beepHz beepDur : Nat)
    (patienceMs : Nat) (now : Nat) (tiltAct : Bool) : Machine × List Out :=
  let pre : List Out := if next ≠ State.LOCKED then [Out.toneOff] else []
  let m1 := { m with
    state := next, enteredAt := now,
    tilt := TiltEdge.reset tiltAct now,
    angryRedOn := true, nextBlinkAt := now, nextBeepAt := now }
  let fx : List Out :=
    if next = State.LOCKED then
      [Out.ledsOut true false false, Out.toneOn LOCKED_TONE_HZ]
    else if 0 < beepHz then [Out.toneShot beepHz beepDur]
    else []
  (m1, pre ++ [baseLeds next] ++ fx ++
        [Out.human next msg, Out.stat next m1.anger patienceMs])

/-- `angryEffectsTick()`: the blink/beep scheduler active while `ANGRY`. -/
def angryEffectsTick (m : Machine) (now : Nat) : Machine × List Out :=
  let b1 :=
    if m.nextBlinkAt ≤ now then
      ({ m with nextBlinkAt := now + ANGRY_BLINK_MS, angryRedOn := !m.angryRedOn },
        [Out.ledR (!m.angryRedOn)])
    else (m, ([] : List Out))
  let b2 :=
    if b1.1.nextBeepAt ≤ now then
      ({ b1.1 with nextBeepAt := now + ANGRY_BEEP_MS },
        [Out.toneShot ANGRY_BEEP_HZ ANGRY_BEEP_DUR_MS])
    else (b1.1, ([] : List Out))
  (b2.1, b1.2 ++ b2.2)

/-- The `case IDLE:` arm of the `switch` in `loop()`. -/
def stepIDLE (m : Machine) (i : Inputs) (t : Bool) (patienceMs : Nat) :
    Machine × List Out :=
  if t = true then
    let r := rngNext m
    enter r.2 State.ALERT (pick3 r.1 "careful." "i felt that." "easy.")
      988 60 patienceMs i.now i.tiltAct
  else if elapsed i.now m.enteredAt patienceMs then
    let r := rngNext m
    enter r.2 State.REWARD (compliment r.1) 1047 60 patienceMs i.now i.tiltAct
  else (m, [])

/-- The `case ALERT:` arm of the `switch` in `loop()`. -/
def stepALERT (m : Machine) (i : Inputs) (t p : Bool) (patienceMs : Nat) :
    Machine × List Out :=
  if t = true then
    let ma := { m with
      anger := if m.anger < MAX_ANGER then m.anger + 1 else m.anger }
    let r := rngNext ma
    enter r.2 State.ANGRY (pick3 r.1 "wrong move." "again? unfortunate." "you insist.")
      220 90 patienceMs i.now i.tiltAct
  else if p = true then
    let r := rngNext m
    enter r.2 State.IDLE (pick3 r.1 "noted." "acknowledged." "good.")
      880 50 patienceMs i.now i.tiltAct
  else if elapsed i.now m.enteredAt ALERT_TIMEOUT_MS then
    let r := rngNext m
    enter r.2 State.IDLE (pick3 r.1 "stand down." "resetting." "idle.")
      880 50 patienceMs i.now i.tiltAct
  else (m, [])

/-- The `case ANGRY:` arm of the `switch` in `loop()`. A tilt event prints a
rebuke (no state change, `printStateMsg` only) and increments capped anger
before the lockout and calm-down checks run on the same tick. -/
def stepANGRY (m : Machine) (i : Inputs) (t : Bool) (patienceMs : Nat) :
    Machine × List Out :=
  let mr : Machine × List Out :=
    if t = true then
      let ma := { m with
        anger := if m.anger < MAX_ANGER then m.anger + 1 else m.anger }
      let r := rngNext ma
      (r.2, [Out.human State.ANGRY (pick3 r.1 "stop." "enough." "do not.")])
    else (m, [])
  let m1 := mr.1
  if MAX_ANGER ≤ m1.anger ∧ elapsed i.now m1.enteredAt 1200 then
    let r := rngNext m1
    let e := enter r.2 State.LOCKED (pick3 r.1 "access revoked." "you are done." "locked.")
      0 0 patienceMs i.now i.tiltAct
    (e.1, mr.2 ++ e.2)
  else if elapsed i.now m1.enteredAt ANGRY_CALM_MS then
    let mb := if m1.anger ≠ 0 then { m1 with anger := m1.anger - 1 } else m1
    let r := rngNext mb
    let e := enter r.2 State.COOLDOWN (pick3 r.1 "cool down." "steady." "watch yourself.")
      660 70 patienceMs i.now i.tiltAct
    (e.1, mr.2 ++ e.2)
  else (m1, mr.2)

/-- The `case COOLDOWN:` arm of the `switch` in `loop()`. -/
def stepCOOLDOWN (m : Machine) (i : Inputs) (t : Bool) (patienceMs : Nat) :
    Machine × List Out :=
  if t = true then
    let ma := { m with
      anger := if m.anger < MAX_ANGER then m.anger + 1 else m.anger }
    let r := rngNext ma
    enter r.2 State.ANGRY (pick3 r.1 "no." "not again." "wrong.")
      220 90 patienceMs i.now i.tiltAct
  else if elapsed i.now m.enteredAt COOLDOWN_MS then
    let r := rngNext m
    enter r.2 State.IDLE (pick3 r.1 "returning." "idle." "reset.")
      880 50 patienceMs i.now i.tiltAct
  else (m, [])

/-- The `case REWARD:` arm of the `switch` in `loop()`. -/
def stepREWARD (m : Machine) (i : Inputs) (t : Bool) (patienceMs : Nat) :
    Machine × List Out :=
  if t = true then
    let r := rngNext m
    enter r.2 State.ALERT (pick3 r.1 "easy." "careful." "i noticed.")
      988 60 patienceMs i.now i.tiltAct
  else if elapsed i.now m.enteredAt REWARD_MS then
    let r := rngNext m
    enter r.2 State.IDLE (pick3 r.1 "cycle complete." "done." "idle.")
      880 50 patienceMs i.now i.tiltAct
  else (m, [])

/-- The `case LOCKED:` arm of the `switch` in `loop()`. `buttonHeld()` is the
raw read `digitalRead(PIN_BUTTON) == LOW`, i.e. `i.btnHigh = false`. -/
def stepLOCKED (m : Machine) (i : Inputs) (patienceMs : Nat) :
    Machine × List Out :=
  if i.btnHigh = false then
    let hold := if m.holdAt = 0 then i.now else m.holdAt
    let ma := { m with holdAt := hold }
    if elapsed i.now hold 2000 then
      let mb := { ma with holdAt := 0, anger := 0 }
      let r := rngNext mb
      enter r.2 State.IDLE (pick3 r.1 "mercy granted." "one more chance." "reset.")
        988 70 patienceMs i.now i.tiltAct
    else (ma, [])
  else ({ m with holdAt := 0 }, [])

/-- Whether the tick got past the `MIN_STATE_MS` early return
(`elapsed(enteredAt, MIN_STATE_MS)`, the first line of `loop()`). -/
def tickRuns (m : Machine) (i : Inputs) : Prop :=
  elapsed i.now m.enteredAt MIN_STATE_MS

instance (m : Machine) (i : Inputs) : Decidable (tickRuns m i) :=
  inferInstanceAs (Decidable (elapsed i.now m.enteredAt MIN_STATE_MS))

/-- One pass of `loop()`. Returns the new machine and the outputs of the
tick, in source order: the `MIN_STATE_MS` early return first, then the
patience computation, the two input polls, the `ANGRY` effects tick, the
solid alarm LED refresh while `LOCKED`, and finally the `switch`. -/
def loopStep (m : Machine) (i : Inputs) : Machine × List Out :=
  if ¬ tickRuns m i then (m, [])
  else
    let patienceMs := patienceOf i.pot
    let t := (m.tilt.event m.state i.now i.tiltAct).1
    let mt := { m with tilt := (m.tilt.event m.state i.now i.tiltAct).2 }
    let p := (buttonPress mt i.now i.btnHigh).1
    let mb := (buttonPress mt i.now i.btnHigh).2
    let ef :=
      if m.state = State.ANGRY then angryEffectsTick mb i.now
      else (mb, ([] : List Out))
    let fx2 : List Out :=
      if m.state = State.LOCKED then [Out.ledsOut true false false] else []
    let br :=
      match m.state with
      | State.IDLE => stepIDLE ef.1 i t patienceMs
      | State.ALERT => stepALERT ef.1 i t p patienceMs
      | State.ANGRY => stepANGRY ef.1 i t patienceMs
      | State.COOLDOWN => stepCOOLDOWN ef.1 i t patienceMs
      | State.REWARD => stepREWARD ef.1 i t patienceMs
      | State.LOCKED => stepLOCKED ef.1 i patienceMs
    (br.1, ef.2 ++ fx2 ++ br.2)

/-- Whether a tilt event fired on this tick (the tick ran and
`tilt.event(state)` returned `true`). -/
def tiltFired (m : Machine) (i : Inputs) : Prop :=
  tickRuns m i ∧ (m.tilt.event m.state i.now i.tiltAct).1 = true

instance (m : Machine) (i : Inputs) : Decidable (tiltFired m i) :=
  inferInstanceAs (Decidable (_ ∧ _))

/-- The global initial values of the sketch, before `setup()` runs: the
initializers of `state`, `anger`, the timestamps, `TiltEdge`'s field
defaults, the `buttonPressEvent` statics (`HIGH`), `holdAt = 0` and the
`rngState` initializer. -/
def initMachine : Machine :=
  { state := State.IDLE, anger := 0, enteredAt := 0,
    nextBlinkAt := 0, nextBeepAt := 0, angryRedOn := true,
    tilt := { lastRawAct := false, changedAt := 0, armed := true, inactiveSince := 0 },
    btnStable := true, btnLastRaw := true, btnChangedAt := 0,
    holdAt := 0, rngState := 0xA5A5A5A5 }

/-- `setup()`: blank LEDs, seed the RNG from two analog readings `a`, `b`,
set `anger = 0` and enter `IDLE` with the fixed boot message, a one-shot
880 Hz tone, and `patienceMs = 0` for the stat line. -/
def setup (a b : Nat) (tiltAct : Bool) (now : Nat) : Machine × List Out :=
  let m0 := { initMachine with rngState := bootSeed a b, anger := 0 }
  let e := enter m0 State.IDLE "stillness acknowledged." 880 70 0 now tiltAct
  (e.1, Out.ledsOut false false false :: e.2)

/-- Reachable machine states, indexed by the clock value at which they were
produced. Boot runs `setup()` with analog readings in the 10-bit ADC range;
each further tick runs `loop()` with a non-decreasing clock and an in-range
potentiometer reading. -/
inductive Reach : Machine → Nat → Prop where
  | boot (a b : Nat) (tiltAct : Bool) (t : Nat) (ha : a ≤ 1023) (hb : b ≤ 1023) :
      Reach (setup a b tiltAct t).1 t
  | step (m : Machine) (t : Nat) (i : Inputs) (hr : Reach m t) (ht : t ≤ i.now)
      (hpot : i.pot ≤ 1023) : Reach (loopStep m i).1 i.now

/-! ## Concrete test vectors

A fixed boot and a driven run `IDLE → ALERT → ANGRY`, used to instantiate
theorems at concrete reachable machines. `inW now act` is a tick input with
the button released (`HIGH`) and the potentiometer at `0`. -/

def inW (now : Nat) (act : Bool) : Inputs :=
  { now := now, tiltAct := act, btnHigh := true, pot := 0 }

def mW0 : Machine := (setup 0 0 false 0).1

def mW1 : Machine := (loopStep mW0 (inW 1000 false)).1

def mW2 : Machine := (loopStep mW1 (inW 2000 false)).1

def mW3 : Machine := (loopStep mW2 (inW 3000 true)).1

def mW4 : Machine := (loopStep mW3 (inW 3100 true)).1

def mW5 : Machine := (loopStep mW4 (inW 3400 false)).1

def mW6 : Machine := (loopStep mW5 (inW 3500 false)).1

def mW7 : Machine := (loopStep mW6 (inW 3700 false)).1

def mW8 : Machine := (loopStep mW7 (inW 3800 true)).1

def mW9 : Machine := (loopStep mW8 (inW 3900 true)).1

/-! ## Field-preservation and projection lemmas -/

@[simp] theorem rngNext_state (m : Machine) : (rngNext m).2.state = m.state := rfl

@[simp] theorem rngNext_anger (m : Machine) : (rngNext m).2.anger = m.anger := rfl

@[simp] theorem rngNext_enteredAt (m : Machine) : (rngNext m).2.enteredAt = m.enteredAt := rfl

@[simp] theorem rngNext_holdAt (m : Machine) : (rngNext m).2.holdAt = m.holdAt := rfl

@[simp] theorem rngNext_tilt (m : Machine) : (rngNext m).2.tilt = m.tilt := rfl

@[simp] theorem rngNext_rngState (m : Machine) : (rngNext m).2.rngState = rngStep m.rngState := rfl

@[simp] theorem buttonPress_state (m : Machine) (now : Nat) (raw : Bool) :
    (buttonPress m now raw).2.state = m.state := by
  simp only [buttonPress]
  split_ifs <;> rfl

@[simp] theorem buttonPress_anger (m : Machine) (now : Nat) (raw : Bool) :
    (buttonPress m now raw).2.anger = m.anger := by
  simp only [buttonPress]
  split_ifs <;> rfl

@[simp] theorem buttonPress_enteredAt (m : Machine) (now : Nat) (raw : Bool) :
    (buttonPress m now raw).2.enteredAt = m.enteredAt := by
  simp only [buttonPress]
  split_ifs <;> rfl

@[simp] theorem buttonPress_holdAt (m : Machine) (now : Nat) (raw : Bool) :
    (buttonPress m now raw).2.holdAt = m.holdAt := by
  simp only [buttonPress]
  split_ifs <;> rfl

@[simp] theorem buttonPress_tilt (m : Machine) (now : Nat) (raw : Bool) :
    (buttonPress m now raw).2.tilt = m.tilt := by
  simp only [buttonPress]
  split_ifs <;> rfl

@[simp] theorem buttonPress_rngState (m : Machine) (now : Nat) (raw : Bool) :
    (buttonPress m now raw).2.rngState = m.rngState := by
  simp only [buttonPress]
  split_ifs <;> rfl

@[simp] theorem angryEffectsTick_state (m : Machine) (now : Nat) :
    (angryEffectsTick m now).1.state = m.state := by
  simp only [angryEffectsTick]
  split_ifs <;> rfl

@[simp] theorem angryEffectsTick_anger (m : Machine) (now : Nat) :
    (angryEffectsTick m now).1.anger = m.anger := by
  simp only [angryEffectsTick]
  split_ifs <;> rfl

@[simp] theorem angryEffectsTick_enteredAt (m : Machine) (now : Nat) :
    (angryEffectsTick m now).1.enteredAt = m.enteredAt := by
  simp only [angryEffectsTick]
  split_ifs <;> rfl

@[simp] theorem angryEffectsTick_holdAt (m : Machine) (now : Nat) :
    (angryEffectsTick m now).1.holdAt = m.holdAt := by
  simp only [angryEffectsTick]
  split_ifs <;> rfl

@[simp] theorem angryEffectsTick_tilt (m : Machine) (now : Nat) :
    (angryEffectsTick m now).1.tilt = m.tilt := by
  simp only [angryEffectsTick]
  split_ifs <;> rfl

@[simp] theorem angryEffectsTick_rngState (m : Machine) (now : Nat) :
    (angryEffectsTick m now).1.rngState = m.rngState := by
  simp only [angryEffectsTick]
  split_ifs <;> rfl

@[simp] theorem angryEffectsTick_serial (m : Machine) (now : Nat) :
    (angryEffectsTick m now).2.filter isSerial = [] := by
  simp only [angryEffectsTick]
  split_ifs <;> simp [List.filter_cons, isSerial]

@[simp] theorem enter_state (m : Machine) (next : State) (msg : String)
    (hz dur pat now : Nat) (act : Bool) :
    (enter m next msg hz dur pat now act).1.state = next := rfl

@[simp] theorem enter_anger (m : Machine) (next : State) (msg : String)
    (hz dur pat now : Nat) (act : Bool) :
    (enter m next msg hz dur pat now act).1.anger = m.anger := rfl

@[simp] theorem enter_enteredAt (m : Machine) (next : State) (msg : String)
    (hz dur pat now : Nat) (act : Bool) :
    (enter m next msg hz dur pat now act).1.enteredAt = now := rfl

@[simp] theorem enter_holdAt (m : Machine) (next : State) (msg : String)
    (hz dur pat now : Nat) (act : Bool) :
    (enter m next msg hz dur pat now act).1.holdAt = m.holdAt := rfl

@[simp] theorem enter_tilt (m : Machine) (next : State) (msg : String)
    (hz dur pat now : Nat) (act : Bool) :
    (enter m next msg hz dur pat now act).1.tilt = TiltEdge.reset act now := rfl

@[simp] theorem enter_rngState (m : Machine) (next : State) (msg : String)
    (hz dur pat now : Nat) (act : Bool) :
    (enter m next msg hz dur pat now act).1.rngState = m.rngState := rfl

@[simp] theorem isSerial_baseLeds (s : State) : isSerial (baseLeds s) = false := by
  cases s <;> rfl

@[simp] theorem enter_serial (m : Machine) (next : State) (msg : String)
    (hz dur pat now : Nat) (act : Bool) :
    (enter m next msg hz dur pat now act).2.filter isSerial =
      [Out.human next msg, Out.stat next m.anger pat] := by
  cases next <;> simp only [enter] <;> split_ifs <;>
    simp_all [List.filter_cons, isSerial, baseLeds]

@[simp] theorem rngNext_fst (m : Machine) : (rngNext m).1 = rngStep m.rngState := rfl

/-! ## Dispatch lemmas: a tick that passes the `MIN_STATE_MS` guard runs the
`switch` arm of the current state on the post-poll machine. -/

theorem loopStep_guard_fail (m : Machine) (i : Inputs) (h : ¬ tickRuns m i) :
    loopStep m i = (m, []) := by
  simp only [loopStep, if_pos h]

theorem loopStep_run_IDLE (m : Machine) (i : Inputs) (hrun : tickRuns m i)
    (hs : m.state = State.IDLE) :
    loopStep m i =
      stepIDLE ((buttonPress { m with tilt := (m.tilt.event m.state i.now i.tiltAct).2 }
          i.now i.btnHigh).2) i (m.tilt.event m.state i.now i.tiltAct).1
        (patienceOf i.pot) := by
  have h : ¬ ¬ tickRuns m i := not_not_intro hrun
  simp only [loopStep, if_neg h, hs]
  simp

theorem loopStep_run_ALERT (m : Machine) (i : Inputs) (hrun : tickRuns m i)
    (hs : m.state = State.ALERT) :
    loopStep m i =
      stepALERT ((buttonPress { m with tilt := (m.tilt.event m.state i.now i.tiltAct).2 }
          i.now i.btnHigh).2) i (m.tilt.event m.state i.now i.tiltAct).1
        ((buttonPress { m with tilt := (m.tilt.event m.state i.now i.tiltAct).2 }
          i.now i.btnHigh).1) (patienceOf i.pot) := by
  have h : ¬ ¬ tickRuns m i := not_not_intro hrun
  simp only [loopStep, if_neg h, hs]
  simp

theorem loopStep_run_ANGRY (m : Machine) (i : Inputs) (hrun : tickRuns m i)
    (hs : m.state = State.ANGRY) :
    loopStep m i =
      ((stepANGRY ((angryEffectsTick
            ((buttonPress { m with tilt := (m.tilt.event m.state i.now i.tiltAct).2 }
              i.now i.btnHigh).2) i.now).1) i (m.tilt.event m.state i.now i.tiltAct).1
          (patienceOf i.pot)).1,
        (angryEffectsTick
            ((buttonPress { m with tilt := (m.tilt.event m.state i.now i.tiltAct).2 }
              i.now i.btnHigh).2) i.now).2 ++
          (stepANGRY ((angryEffectsTick
              ((buttonPress { m with tilt := (m.tilt.event m.state i.now i.tiltAct).2 }
                i.now i.btnHigh).2) i.now).1) i (m.tilt.event m.state i.now i.tiltAct).1
            (patienceOf i.pot)).2) := by
  have h : ¬ ¬ tickRuns m i := not_not_intro hrun
  simp only [loopStep, if_neg h, hs]
  simp

theorem loopStep_run_COOLDOWN (m : Machine) (i : Inputs) (hrun : tickRuns m i)
    (hs : m.state = State.COOLDOWN) :
    loopStep m i =
      stepCOOLDOWN ((buttonPress { m with tilt := (m.tilt.event m.state i.now i.tiltAct).2 }
          i.now i.btnHigh).2) i (m.tilt.event m.state i.now i.tiltAct).1
        (patienceOf i.pot) := by
  have h : ¬ ¬ tickRuns m i := not_not_intro hrun
  simp only [loopStep, if_neg h, hs]
  simp

theorem loopStep_run_REWARD (m : Machine) (i : Inputs) (hrun : tickRuns m i)
    (hs : m.state = State.REWARD) :
    loopStep m i =
      stepREWARD ((buttonPress { m with tilt := (m.tilt.event m.state i.now i.tiltAct).2 }
          i.now i.btnHigh).2) i (m.tilt.event m.state i.now i.tiltAct).1
        (patienceOf i.pot) := by
  have h : ¬ ¬ tickRuns m i := not_not_intro hrun
  simp only [loopStep, if_neg h, hs]
  simp

theorem loopStep_run_LOCKED (m : Machine) (i : Inputs) (hrun : tickRuns m i)
    (hs : m.state = State.LOCKED) :
    loopStep m i =
      ((stepLOCKED ((buttonPress { m with tilt := (m.tilt.event m.state i.now i.tiltAct).2 }
            i.now i.btnHigh).2) i (patienceOf i.pot)).1,
        Out.ledsOut true false false ::
          (stepLOCKED ((buttonPress { m with tilt := (m.tilt.event m.state i.now i.tiltAct).2 }
            i.now i.btnHigh).2) i (patienceOf i.pot)).2) := by
  have h : ¬ ¬ tickRuns m i := not_not_intro hrun
  simp only [loopStep, if_neg h, hs]
  simp

/-! ## Branch characterizations: each `switch` arm's effect on the fields
the claims talk about. -/

theorem stepIDLE_anger (m : Machine) (i : Inputs) (t : Bool) (pat : Nat) :
    (stepIDLE m i t pat).1.anger = m.anger := by
  simp only [stepIDLE]
  split_ifs <;> simp

theorem stepIDLE_state (m : Machine) (i : Inputs) (t : Bool) (pat : Nat) :
    (stepIDLE m i t pat).1.state =
      if t = true then State.ALERT
      else if elapsed i.now m.enteredAt pat then State.REWARD
      else m.state := by
  simp only [stepIDLE]
  split_ifs <;> simp

theorem stepIDLE_enteredAt (m : Machine) (i : Inputs) (t : Bool) (pat : Nat) :
    (stepIDLE m i t pat).1.enteredAt =
      if t = true then i.now
      else if elapsed i.now m.enteredAt pat then i.now
      else m.enteredAt := by
  simp only [stepIDLE]
  split_ifs <;> simp

theorem stepIDLE_tilt (m : Machine) (i : Inputs) (t : Bool) (pat : Nat) :
    (stepIDLE m i t pat).1.tilt =
      if t = true then TiltEdge.reset i.tiltAct i.now
      else if elapsed i.now m.enteredAt pat then TiltEdge.reset i.tiltAct i.now
      else m.tilt := by
  simp only [stepIDLE]
  split_ifs <;> simp

theorem stepIDLE_holdAt (m : Machine) (i : Inputs) (t : Bool) (pat : Nat) :
    (stepIDLE m i t pat).1.holdAt = m.holdAt := by
  simp only [stepIDLE]
  split_ifs <;> simp

theorem stepIDLE_rngState (m : Machine) (i : Inputs) (t : Bool) (pat : Nat) :
    (stepIDLE m i t pat).1.rngState = m.rngState ∨
      (stepIDLE m i t pat).1.rngState = rngStep m.rngState := by
  simp only [stepIDLE]
  split_ifs <;> simp

theorem stepALERT_anger (m : Machine) (i : Inputs) (t p : Bool) (pat : Nat) :
    (stepALERT m i t p pat).1.anger =
      if t = true then
        (if m.anger < MAX_ANGER then m.anger + 1 else m.anger)
      else m.anger := by
  simp only [stepALERT]
  split_ifs <;> simp

theorem stepALERT_state (m : Machine) (i : Inputs) (t p : Bool) (pat : Nat) :
    (stepALERT m i t p pat).1.state =
      if t = true then State.ANGRY
      else if p = true then State.IDLE
      else if elapsed i.now m.enteredAt ALERT_TIMEOUT_MS then State.IDLE
      else m.state := by
  simp only [stepALERT]
  split_ifs <;> simp

theorem stepALERT_enteredAt (m : Machine) (i : Inputs) (t p : Bool) (pat : Nat) :
    (stepALERT m i t p pat).1.enteredAt =
      if t = true then i.now
      else if p = true then i.now
      else if elapsed i.now m.enteredAt ALERT_TIMEOUT_MS then i.now
      else m.enteredAt := by
  simp only [stepALERT]
  split_ifs <;> simp

theorem stepALERT_tilt (m : Machine) (i : Inputs) (t p : Bool) (pat : Nat) :
    (stepALERT m i t p pat).1.tilt =
      if t = true then TiltEdge.reset i.tiltAct i.now
      else if p = true then TiltEdge.reset i.tiltAct i.now
      else if elapsed i.now m.enteredAt ALERT_TIMEOUT_MS then TiltEdge.reset i.tiltAct i.now
      else m.tilt := by
  simp only [stepALERT]
  split_ifs <;> simp

theorem stepALERT_holdAt (m : Machine) (i : Inputs) (t p : Bool) (pat : Nat) :
    (stepALERT m i t p pat).1.holdAt = m.holdAt := by
  simp only [stepALERT]
  split_ifs <;> simp

theorem stepALERT_rngState (m : Machine) (i : Inputs) (t p : Bool) (pat : Nat) :
    (stepALERT m i t p pat).1.rngState = m.rngState ∨
      (stepALERT m i t p pat).1.rngState = rngStep m.rngState := by
  simp only [stepALERT]
  split_ifs <;> simp

theorem stepANGRY_anger (m : Machine) (i : Inputs) (t : Bool) (pat : Nat) :
    (stepANGRY m i t pat).1.anger =
      if MAX_ANGER ≤ (if t = true then (if m.anger < MAX_ANGER then m.anger + 1 else m.anger) else m.anger) ∧
          elapsed i.now m.enteredAt 1200 then
        (if t = true then (if m.anger < MAX_ANGER then m.anger + 1 else m.anger) else m.anger)
      else if elapsed i.now m.enteredAt ANGRY_CALM_MS then
        (if (if t = true then (if m.anger < MAX_ANGER then m.anger + 1 else m.anger) else m.anger) ≠ 0 then
          (if t = true then (if m.anger < MAX_ANGER then m.anger + 1 else m.anger) else m.anger) - 1
        else (if t = true then (if m.anger < MAX_ANGER then m.anger + 1 else m.anger) else m.anger))
      else (if t = true then (if m.anger < MAX_ANGER then m.anger + 1 else m.anger) else m.anger) := by
  cases t <;> simp only [stepANGRY] <;> split_ifs <;> simp_all

theorem stepANGRY_state (m : Machine) (i : Inputs) (t : Bool) (pat : Nat) :
    (stepANGRY m i t pat).1.state =
      if MAX_ANGER ≤ (if t = true then (if m.anger < MAX_ANGER then m.anger + 1 else m.anger) else m.anger) ∧
          elapsed i.now m.enteredAt 1200 then State.LOCKED
      else if elapsed i.now m.enteredAt ANGRY_CALM_MS then State.COOLDOWN
      else m.state := by
  cases t <;> simp only [stepANGRY] <;> split_ifs <;> simp_all

theorem stepANGRY_enteredAt (m : Machine) (i : Inputs) (t : Bool) (pat : Nat) :
    (stepANGRY m i t pat).1.enteredAt =
      if MAX_ANGER ≤ (if t = true then (if m.anger < MAX_ANGER then m.anger + 1 else m.anger) else m.anger) ∧
          elapsed i.now m.enteredAt 1200 then i.now
      else if elapsed i.now m.enteredAt ANGRY_CALM_MS then i.now
      else m.enteredAt := by
  cases t <;> simp only [stepANGRY] <;> split_ifs <;> simp_all

theorem stepANGRY_tilt (m : Machine) (i : Inputs) (t : Bool) (pat : Nat) :
    (stepANGRY m i t pat).1.tilt =
      if MAX_ANGER ≤ (if t = true then (if m.anger < MAX_ANGER then m.anger + 1 else m.anger) else m.anger) ∧
          elapsed i.now m.enteredAt 1200 then TiltEdge.reset i.tiltAct i.now
      else if elapsed i.now m.enteredAt ANGRY_CALM_MS then TiltEdge.reset i.tiltAct i.now
      else m.tilt := by
  cases t <;> simp only [stepANGRY] <;> split_ifs <;> simp_all

theorem stepANGRY_holdAt (m : Machine) (i : Inputs) (t : Bool) (pat : Nat) :
    (stepANGRY m i t pat).1.holdAt = m.holdAt := by
  cases t <;> simp only [stepANGRY] <;> split_ifs <;> simp_all

theorem stepANGRY_rngState (m : Machine) (i : Inputs) (t : Bool) (pat : Nat) :
    (stepANGRY m i t pat).1.rngState = m.rngState ∨
      (stepANGRY m i t pat).1.rngState = rngStep m.rngState ∨
      (stepANGRY m i t pat).1.rngState = rngStep (rngStep m.rngState) := by
  cases t <;> simp only [stepANGRY] <;> split_ifs <;> simp_all

theorem stepCOOLDOWN_anger (m : Machine) (i : Inputs) (t : Bool) (pat : Nat) :
    (stepCOOLDOWN m i t pat).1.anger =
      if t = true then
        (if m.anger < MAX_ANGER then m.anger + 1 else m.anger)
      else m.anger := by
  simp only [stepCOOLDOWN]
  split_ifs <;> simp

theorem stepCOOLDOWN_state (m : Machine) (i : Inputs) (t : Bool) (pat : Nat) :
    (stepCOOLDOWN m i t pat).1.state =
      if t = true then State.ANGRY
      else if elapsed i.now m.enteredAt COOLDOWN_MS then State.IDLE
      else m.state := by
  simp only [stepCOOLDOWN]
  split_ifs <;> simp

theorem stepCOOLDOWN_enteredAt (m : Machine) (i : Inputs) (t : Bool) (pat : Nat) :
    (stepCOOLDOWN m i t pat).1.enteredAt =
      if t = true then i.now
      else if elapsed i.now m.enteredAt COOLDOWN_MS then i.now
      else m.enteredAt := by
  simp only [stepCOOLDOWN]
  split_ifs <;> simp

theorem stepCOOLDOWN_tilt (m : Machine) (i : Inputs) (t : Bool) (pat : Nat) :
    (stepCOOLDOWN m i t pat).1.tilt =
      if t = true then TiltEdge.reset i.tiltAct i.now
      else if elapsed i.now m.enteredAt COOLDOWN_MS then TiltEdge.reset i.tiltAct i.now
      else m.tilt := by
  simp only [stepCOOLDOWN]
  split_ifs <;> simp

theorem stepCOOLDOWN_holdAt (m : Machine) (i : Inputs) (t : Bool) (pat : Nat) :
    (stepCOOLDOWN m i t pat).1.holdAt = m.holdAt := by
  simp only [stepCOOLDOWN]
  split_ifs <;> simp

theorem stepCOOLDOWN_rngState (m : Machine) (i : Inputs) (t : Bool) (pat : Nat) :
    (stepCOOLDOWN m i t pat).1.rngState = m.rngState ∨
      (stepCOOLDOWN m i t pat).1.rngState = rngStep m.rngState := by
  simp only [stepCOOLDOWN]
  split_ifs <;> simp

theorem stepREWARD_anger (m : Machine) (i : Inputs) (t : Bool) (pat : Nat) :
    (stepREWARD m i t pat).1.anger = m.anger := by
  simp only [stepREWARD]
  split_ifs <;> simp

theorem stepREWARD_state (m : Machine) (i : Inputs) (t : Bool) (pat : Nat) :
    (stepREWARD m i t pat).1.state =
      if t = true then State.ALERT
      else if elapsed i.now m.enteredAt REWARD_MS then State.IDLE
      else m.state := by
  simp only [stepREWARD]
  split_ifs <;> simp

theorem stepREWARD_enteredAt (m : Machine) (i : Inputs) (t : Bool) (pat : Nat) :
    (stepREWARD m i t pat).1.enteredAt =
      if t = true then i.now
      else if elapsed i.now m.enteredAt REWARD_MS then i.now
      else m.enteredAt := by
  simp only [stepREWARD]
  split_ifs <;> simp

theorem stepREWARD_tilt (m : Machine) (i : Inputs) (t : Bool) (pat : Nat) :
    (stepREWARD m i t pat).1.tilt =
      if t = true then TiltEdge.reset i.tiltAct i.now
      else if elapsed i.now m.enteredAt REWARD_MS then TiltEdge.reset i.tiltAct i.now
      else m.tilt := by
  simp only [stepREWARD]
  split_ifs <;> simp

theorem stepREWARD_holdAt (m : Machine) (i : Inputs) (t : Bool) (pat : Nat) :
    (stepREWARD m i t pat).1.holdAt = m.holdAt := by
  simp only [stepREWARD]
  split_ifs <;> simp

theorem stepREWARD_rngState (m : Machine) (i : Inputs) (t : Bool) (pat : Nat) :
    (stepREWARD m i t pat).1.rngState = m.rngState ∨
      (stepREWARD m i t pat).1.rngState = rngStep m.rngState := by
  simp only [stepREWARD]
  split_ifs <;> simp

theorem stepLOCKED_anger (m : Machine) (i : Inputs) (pat : Nat) :
    (stepLOCKED m i pat).1.anger =
      if i.btnHigh = false ∧ elapsed i.now (if m.holdAt = 0 then i.now else m.holdAt) 2000 then 0
      else m.anger := by
  simp only [stepLOCKED]
  split_ifs <;> simp_all

theorem stepLOCKED_state (m : Machine) (i : Inputs) (pat : Nat) :
    (stepLOCKED m i pat).1.state =
      if i.btnHigh = false ∧ elapsed i.now (if m.holdAt = 0 then i.now else m.holdAt) 2000 then State.IDLE
      else m.state := by
  simp only [stepLOCKED]
  split_ifs <;> simp_all

theorem stepLOCKED_enteredAt (m : Machine) (i : Inputs) (pat : Nat) :
    (stepLOCKED m i pat).1.enteredAt =
      if i.btnHigh = false ∧ elapsed i.now (if m.holdAt = 0 then i.now else m.holdAt) 2000 then i.now
      else m.enteredAt := by
  simp only [stepLOCKED]
  split_ifs <;> simp_all

theorem stepLOCKED_tilt (m : Machine) (i : Inputs) (pat : Nat) :
    (stepLOCKED m i pat).1.tilt =
      if i.btnHigh = false ∧ elapsed i.now (if m.holdAt = 0 then i.now else m.holdAt) 2000 then
        TiltEdge.reset i.tiltAct i.now
      else m.tilt := by
  simp only [stepLOCKED]
  split_ifs <;> simp_all

theorem stepLOCKED_holdAt (m : Machine) (i : Inputs) (pat : Nat) :
    (stepLOCKED m i pat).1.holdAt =
      if i.btnHigh = false then
        (if elapsed i.now (if m.holdAt = 0 then i.now else m.holdAt) 2000 then 0
          else (if m.holdAt = 0 then i.now else m.holdAt))
      else 0 := by
  simp only [stepLOCKED]
  split_ifs <;> simp_all

theorem stepLOCKED_rngState (m : Machine) (i : Inputs) (pat : Nat) :
    (stepLOCKED m i pat).1.rngState = m.rngState ∨
      (stepLOCKED m i pat).1.rngState = rngStep m.rngState := by
  simp only [stepLOCKED]
  split_ifs <;> simp

/-! ## RNG arithmetic: the xorshift32 update maps nonzero 32-bit states to
nonzero 32-bit states, and the boot seed is nonzero. -/

theorem shl_fixed_zero {x k : Nat} (hx : x < U32) (hk : 0 < k)
    (h : x = (x <<< k) % U32) : x = 0 := by
  rw [Nat.shiftLeft_eq] at h
  have iter : ∀ j, x = x * 2 ^ (k * j) % U32 := by
    intro j
    induction j with
    | zero => simp [Nat.mod_eq_of_lt hx]
    | succ n ih =>
      have h2 : x * 2 ^ (k * n) % U32 = x * 2 ^ k % U32 * 2 ^ (k * n) % U32 := by
        rw [← h]
      calc x = x * 2 ^ (k * n) % U32 := ih
        _ = x * 2 ^ k % U32 * 2 ^ (k * n) % U32 := h2
        _ = x * 2 ^ k * 2 ^ (k * n) % U32 := by rw [Nat.mod_mul_mod]
        _ = x * 2 ^ (k * (n + 1)) % U32 := by
              congr 1
              rw [mul_assoc, ← pow_add]
              congr 1
              ring
  have hJ := iter 32
  have h32 : 32 ≤ k * 32 := Nat.le_mul_of_pos_left 32 hk
  have hz : x * 2 ^ (k * 32) % U32 = 0 := by
    have hp : (2 : Nat) ^ (k * 32) = 2 ^ (k * 32 - 32) * 2 ^ 32 := by
      rw [← pow_add]
      congr 1
      omega
    rw [hp, ← mul_assoc]
    exact Nat.mul_mod_left _ _
  exact hJ.trans hz

theorem shr_fixed_zero {x : Nat} (hx : x < U32) (h : x = x >>> 17) : x = 0 := by
  have h2 : x >>> 17 = x >>> 34 := by
    conv_lhs => rw [h]
    rw [← Nat.shiftRight_add]
  have h3 : x >>> 34 = 0 := by
    rw [Nat.shiftRight_eq_div_pow]
    exact Nat.div_eq_of_lt (lt_of_lt_of_le hx (by norm_num [U32]))
  exact (h.trans h2).trans h3

theorem U32_pos : 0 < U32 := by norm_num [U32]

theorem xor_lt_U32 {x y : Nat} (hx : x < U32) (hy : y < U32) : x ^^^ y < U32 :=
  Nat.xor_lt_two_pow hx hy

theorem rngStep_lt {x : Nat} (hx : x < U32) : rngStep x < U32 := by
  have h1 : (x <<< 13) % U32 < U32 := Nat.mod_lt _ U32_pos
  have ha : x ^^^ (x <<< 13) % U32 < U32 := xor_lt_U32 hx h1
  have hshr : (x ^^^ (x <<< 13) % U32) >>> 17 < U32 := by
    rw [Nat.shiftRight_eq_div_pow]
    exact lt_of_le_of_lt (Nat.div_le_self _ _) ha
  have hb : (x ^^^ (x <<< 13) % U32) ^^^ (x ^^^ (x <<< 13) % U32) >>> 17 < U32 :=
    xor_lt_U32 ha hshr
  have h5 : ((x ^^^ (x <<< 13) % U32) ^^^ (x ^^^ (x <<< 13) % U32) >>> 17) <<< 5 % U32 < U32 :=
    Nat.mod_lt _ U32_pos
  simpa [rngStep] using xor_lt_U32 hb h5

theorem rngStep_ne_zero {x : Nat} (hx : x < U32) (h0 : x ≠ 0) : rngStep x ≠ 0 := by
  have h1 : (x <<< 13) % U32 < U32 := Nat.mod_lt _ U32_pos
  have ha : x ^^^ (x <<< 13) % U32 < U32 := xor_lt_U32 hx h1
  have hshr : (x ^^^ (x <<< 13) % U32) >>> 17 < U32 := by
    rw [Nat.shiftRight_eq_div_pow]
    exact lt_of_le_of_lt (Nat.div_le_self _ _) ha
  have hb : (x ^^^ (x <<< 13) % U32) ^^^ (x ^^^ (x <<< 13) % U32) >>> 17 < U32 :=
    xor_lt_U32 ha hshr
  intro hc
  have hb0 : (x ^^^ (x <<< 13) % U32) ^^^ (x ^^^ (x <<< 13) % U32) >>> 17 = 0 := by
    apply shl_fixed_zero hb (show 0 < 5 by norm_num)
    exact Nat.xor_eq_zero.mp (by simpa [rngStep] using hc)
  have ha0 : x ^^^ (x <<< 13) % U32 = 0 :=
    shr_fixed_zero ha (Nat.xor_eq_zero.mp hb0)
  exact h0 (shl_fixed_zero hx (show 0 < 13 by norm_num) (Nat.xor_eq_zero.mp ha0))

theorem bootSeed_lt (a b : Nat) (hb : b ≤ 1023) : bootSeed a b < U32 := by
  have h0 : (0xA5A5A5A5 : Nat) < U32 := by norm_num [U32]
  have h1 : (a <<< 16) % U32 < U32 := Nat.mod_lt _ U32_pos
  have h2 : b < U32 := lt_of_le_of_lt hb (by norm_num [U32])
  exact xor_lt_U32 (xor_lt_U32 h0 h1) h2

/-- The two 10-bit analog readings only disturb bits 0–25 of the seed: every
bit from 26 up agrees with the constant `0xA5A5A5A5`. -/
theorem bootSeed_testBit (a b : Nat) (ha : a ≤ 1023) (hb : b ≤ 1023) :
    ∀ j, 26 ≤ j → (bootSeed a b).testBit j = (0xA5A5A5A5 : Nat).testBit j := by
  intro j hj
  have hsh : (a <<< 16) % U32 = a <<< 16 := by
    apply Nat.mod_eq_of_lt
    rw [Nat.shiftLeft_eq]
    calc a * 2 ^ 16 ≤ 1023 * 2 ^ 16 := Nat.mul_le_mul_right _ ha
      _ < U32 := by norm_num [U32]
  have hbit1 : (a <<< 16).testBit j = false := by
    rw [Nat.testBit_shiftLeft]
    have : a.testBit (j - 16) = false := by
      apply Nat.testBit_lt_two_pow
      calc a < 2 ^ 10 := by omega
        _ ≤ 2 ^ (j - 16) := Nat.pow_le_pow_right (by norm_num) (by omega)
    simp [this]
  have hbit2 : b.testBit j = false := by
    apply Nat.testBit_lt_two_pow
    calc b < 2 ^ 10 := by omega
      _ ≤ 2 ^ j := Nat.pow_le_pow_right (by norm_num) (by omega)
  rw [bootSeed, Nat.testBit_xor, Nat.testBit_xor, hsh, hbit1, hbit2]
  simp

theorem bootSeed_ne_zero (a b : Nat) (ha : a ≤ 1023) (hb : b ≤ 1023) :
    bootSeed a b ≠ 0 := by
  intro hc
  have h31 : (bootSeed a b).testBit 31 = (0xA5A5A5A5 : Nat).testBit 31 :=
    bootSeed_testBit a b ha hb 31 (by norm_num)
  rw [hc] at h31
  simp only [Nat.zero_testBit] at h31
  have : (0xA5A5A5A5 : Nat).testBit 31 = true := by decide
  rw [this] at h31
  cases h31

/-! ## The reachability invariant -/

/-- Invariant of every reachable state: anger stays in `[0, MAX_ANGER]`,
`ANGRY` implies positive anger, `LOCKED` implies saturated anger, the entry
timestamp never runs ahead of the clock, and the RNG state is a nonzero
32-bit value. -/
theorem reach_inv {m : Machine} {t : Nat} (h : Reach m t) :
    m.anger ≤ MAX_ANGER ∧
    (m.state = State.ANGRY → 1 ≤ m.anger) ∧
    (m.state = State.LOCKED → m.anger = MAX_ANGER) ∧
    m.enteredAt ≤ t ∧
    m.rngState ≠ 0 ∧ m.rngState < U32 := by
  induction h with
  | boot a b act t ha hb =>
    have hA : (setup a b act t).1.anger = 0 := rfl
    have hs : (setup a b act t).1.state = State.IDLE := rfl
    have hE : (setup a b act t).1.enteredAt = t := rfl
    have hR : (setup a b act t).1.rngState = bootSeed a b := rfl
    refine ⟨?_, ?_, ?_, ?_, ?_, ?_⟩
    · rw [hA]; exact Nat.zero_le _
    · rw [hs]; intro hc; exact absurd hc (by decide)
    · rw [hs]; intro hc; exact absurd hc (by decide)
    · rw [hE]
    · rw [hR]; exact bootSeed_ne_zero a b ha hb
    · rw [hR]; exact bootSeed_lt a b hb
  | step m t i hr ht hpot ih =>
    obtain ⟨ih1, ih2, ih3, ih4, ih5, ih6⟩ := ih
    by_cases hrun : tickRuns m i
    case neg =>
      rw [loopStep_guard_fail _ _ hrun]
      exact ⟨ih1, ih2, ih3, le_trans ih4 ht, ih5, ih6⟩
    case pos =>
    cases hss : m.state
    case IDLE =>
      rw [loopStep_run_IDLE m i hrun hss]
      refine ⟨?_, ?_, ?_, ?_, ?_, ?_⟩
      · rw [stepIDLE_anger]; simpa using ih1
      · rw [stepIDLE_state]; split_ifs <;> simp [hss]
      · rw [stepIDLE_state]; split_ifs <;> simp [hss]
      · rw [stepIDLE_enteredAt]; split_ifs <;> simp <;> omega
      · rcases stepIDLE_rngState _ i _ (patienceOf i.pot) with hq | hq <;> rw [hq] <;> simp
        · exact ih5
        · exact rngStep_ne_zero ih6 ih5
      · rcases stepIDLE_rngState _ i _ (patienceOf i.pot) with hq | hq <;> rw [hq] <;> simp
        · exact ih6
        · exact rngStep_lt ih6
    case ALERT =>
      rw [loopStep_run_ALERT m i hrun hss]
      refine ⟨?_, ?_, ?_, ?_, ?_, ?_⟩
      · rw [stepALERT_anger]
        split_ifs <;> simp_all [MAX_ANGER] <;> omega
      · rw [stepALERT_state, stepALERT_anger]
        split_ifs <;> simp_all [MAX_ANGER, hss] <;> omega
      · rw [stepALERT_state]; split_ifs <;> simp [hss]
      · rw [stepALERT_enteredAt]; split_ifs <;> simp <;> omega
      · rcases stepALERT_rngState _ i _ _ (patienceOf i.pot) with hq | hq <;> rw [hq] <;> simp
        · exact ih5
        · exact rngStep_ne_zero ih6 ih5
      · rcases stepALERT_rngState _ i _ _ (patienceOf i.pot) with hq | hq <;> rw [hq] <;> simp
        · exact ih6
        · exact rngStep_lt ih6
    case ANGRY =>
      rw [loopStep_run_ANGRY m i hrun hss]
      have hang : 1 ≤ m.anger := ih2 hss
      refine ⟨?_, ?_, ?_, ?_, ?_, ?_⟩
      · rw [stepANGRY_anger]
        split_ifs <;> simp_all [MAX_ANGER] <;> omega
      · rw [stepANGRY_state, stepANGRY_anger]
        split_ifs <;> simp_all [MAX_ANGER, hss] <;> omega
      · rw [stepANGRY_state, stepANGRY_anger]
        split_ifs <;> simp_all [MAX_ANGER, hss] <;> omega
      · rw [stepANGRY_enteredAt]; split_ifs <;> simp <;> omega
      · rcases stepANGRY_rngState _ i _ (patienceOf i.pot) with hq | hq | hq <;>
          rw [hq] <;> simp
        · exact ih5
        · exact rngStep_ne_zero ih6 ih5
        · exact rngStep_ne_zero (rngStep_lt ih6) (rngStep_ne_zero ih6 ih5)
      · rcases stepANGRY_rngState _ i _ (patienceOf i.pot) with hq | hq | hq <;>
          rw [hq] <;> simp
        · exact ih6
        · exact rngStep_lt ih6
        · exact rngStep_lt (rngStep_lt ih6)
    case COOLDOWN =>
      rw [loopStep_run_COOLDOWN m i hrun hss]
      refine ⟨?_, ?_, ?_, ?_, ?_, ?_⟩
      · rw [stepCOOLDOWN_anger]
        split_ifs <;> simp_all [MAX_ANGER] <;> omega
      · rw [stepCOOLDOWN_state, stepCOOLDOWN_anger]
        split_ifs <;> simp_all [MAX_ANGER, hss] <;> omega
      · rw [stepCOOLDOWN_state]; split_ifs <;> simp [hss]
      · rw [stepCOOLDOWN_enteredAt]; split_ifs <;> simp <;> omega
      · rcases stepCOOLDOWN_rngState _ i _ (patienceOf i.pot) with hq | hq <;> rw [hq] <;> simp
        · exact ih5
        · exact rngStep_ne_zero ih6 ih5
      · rcases stepCOOLDOWN_rngState _ i _ (patienceOf i.pot) with hq | hq <;> rw [hq] <;> simp
        · exact ih6
        · exact rngStep_lt ih6
    case REWARD =>
      rw [loopStep_run_REWARD m i hrun hss]
      refine ⟨?_, ?_, ?_, ?_, ?_, ?_⟩
      · rw [stepREWARD_anger]; simpa using ih1
      · rw [stepREWARD_state]; split_ifs <;> simp [hss]
      · rw [stepREWARD_state]; split_ifs <;> simp [hss]
      · rw [stepREWARD_enteredAt]; split_ifs <;> simp <;> omega
      · rcases stepREWARD_rngState _ i _ (patienceOf i.pot) with hq | hq <;> rw [hq] <;> simp
        · exact ih5
        · exact rngStep_ne_zero ih6 ih5
      · rcases stepREWARD_rngState _ i _ (patienceOf i.pot) with hq | hq <;> rw [hq] <;> simp
        · exact ih6
        · exact rngStep_lt ih6
    case LOCKED =>
      rw [loopStep_run_LOCKED m i hrun hss]
      have hsat : m.anger = MAX_ANGER := ih3 hss
      refine ⟨?_, ?_, ?_, ?_, ?_, ?_⟩
      · rw [stepLOCKED_anger]
        split_ifs <;> simp_all [MAX_ANGER] <;> omega
      · rw [stepLOCKED_state]; split_ifs <;> simp [hss]
      · rw [stepLOCKED_state, stepLOCKED_anger]
        split_ifs <;> simp_all [MAX_ANGER, hss] <;> omega
      · rw [stepLOCKED_enteredAt]; split_ifs <;> simp <;> omega
      · rcases stepLOCKED_rngState _ i (patienceOf i.pot) with hq | hq <;> rw [hq] <;> simp
        · exact ih5
        · exact rngStep_ne_zero ih6 ih5
      · rcases stepLOCKED_rngState _ i (patienceOf i.pot) with hq | hq <;> rw [hq] <;> simp
        · exact ih6
        · exact rngStep_lt ih6

/-! ## Patience window range -/

theorem patienceOf_range {pot : Nat} (h : pot ≤ 1023) :
    IDLE_REWARD_MIN_MS ≤ patienceOf pot ∧ patienceOf pot ≤ IDLE_REWARD_MAX_MS := by
  simp only [patienceOf, mapRange, IDLE_REWARD_MIN_MS, IDLE_REWARD_MAX_MS]
  omega

/-- The serial-relevant output of the `LOCKED` arm. -/
theorem stepLOCKED_snd (m : Machine) (i : Inputs) (pat : Nat) :
    (stepLOCKED m i pat).2 =
      if i.btnHigh = false ∧ elapsed i.now (if m.holdAt = 0 then i.now else m.holdAt) 2000 then
        [Out.toneOff, baseLeds State.IDLE, Out.toneShot 988 70,
          Out.human State.IDLE
            (pick3 (rngStep m.rngState) "mercy granted." "one more chance." "reset."),
          Out.stat State.IDLE 0 pat]
      else [] := by
  simp only [stepLOCKED, enter]
  split_ifs <;> simp_all

/-- C3: if fewer than `MIN_STATE_MS` milliseconds have passed since the
current state was entered, the tick is a no-op — the machine (detector and
button state included) is unchanged and nothing is emitted — because the
guard is the first statement of `loop()`, checked once before all other
logic; consequently any tick that changes the state or re-stamps the entry
timestamp has a dwell of at least `MIN_STATE_MS = 200` ms. -/
theorem min_state_guard (m : Machine) (i : Inputs) :
    (¬ tickRuns m i → loopStep m i = (m, [])) ∧
    ((loopStep m i).1.state ≠ m.state ∨ (loopStep m i).1.enteredAt ≠ m.enteredAt →
      MIN_STATE_MS ≤ i.now - m.enteredAt) := by
  constructor
  · exact loopStep_guard_fail m i
  · intro hd
    by_contra hlt
    have hng : ¬ tickRuns m i := hlt
    rw [loopStep_guard_fail m i hng] at hd
    simp at hd

/-- C3 witness: a concrete tick 100 ms after boot changes nothing. -/
theorem min_state_guard_witness :
    loopStep (setup 0 0 false 0).1
        { now := 100, tiltAct := true, btnHigh := false, pot := 0 } =
      ((setup 0 0 false 0).1, []) :=
  (min_state_guard (setup 0 0 false 0).1
      { now := 100, tiltAct := true, btnHigh := false, pot := 0 }).1 (by decide)

/-- C5: from `IDLE`, the tick transitions to `REWARD` exactly when the tick
ran, no tilt event fired, and the dwell reached the patience window computed
from this very tick's potentiometer reading; that window always lies in
`[IDLE_REWARD_MIN_MS, IDLE_REWARD_MAX_MS] = [5000, 20000]` for a 10-bit
reading. The window appears in the transition condition only as
`patienceOf i.pot` of the current tick's input — it is recomputed each tick
and never stored in the `Machine` state. -/
theorem idle_reward (m : Machine) (i : Inputs) (hs : m.state = State.IDLE)
    (hpot : i.pot ≤ 1023) :
    ((loopStep m i).1.state = State.REWARD ↔
      tickRuns m i ∧ (m.tilt.event m.state i.now i.tiltAct).1 = false ∧
        elapsed i.now m.enteredAt (patienceOf i.pot)) ∧
    IDLE_REWARD_MIN_MS ≤ patienceOf i.pot ∧ patienceOf i.pot ≤ IDLE_REWARD_MAX_MS := by
  refine ⟨?_, patienceOf_range hpot⟩
  by_cases hrun : tickRuns m i
  · rw [loopStep_run_IDLE m i hrun hs, stepIDLE_state]
    cases htl : (m.tilt.event m.state i.now i.tiltAct).1 <;>
      simp [htl, hrun, hs] <;> split_ifs <;> simp_all
  · rw [loopStep_guard_fail m i hrun]
    simp [hs, hrun]

/-- C5 witness: a quiet `IDLE` machine with dwell 6000 ms and the
potentiometer at 0 (patience 5000 ms) transitions to `REWARD`. -/
theorem idle_reward_witness :
    ((loopStep (setup 0 0 false 0).1
          { now := 6000, tiltAct := false, btnHigh := true, pot := 0 }).1.state =
        State.REWARD ↔
      tickRuns (setup 0 0 false 0).1
          { now := 6000, tiltAct := false, btnHigh := true, pot := 0 } ∧
        ((setup 0 0 false 0).1.tilt.event (setup 0 0 false 0).1.state 6000 false).1 = false ∧
        elapsed 6000 (setup 0 0 false 0).1.enteredAt (patienceOf 0)) ∧
    IDLE_REWARD_MIN_MS ≤ patienceOf 0 ∧ patienceOf 0 ≤ IDLE_REWARD_MAX_MS :=
  idle_reward (setup 0 0 false 0).1
    { now := 6000, tiltAct := false, btnHigh := true, pot := 0 } (by decide) (by decide)

/-- C4: from `LOCKED` the only exit is to `IDLE`; it happens exactly when the
tick ran, the raw button read is `LOW`, and 2000 ms have elapsed since the
hold-start stamp (freshly stamped this tick when `holdAt = 0`, so a
just-started hold never unlocks immediately); unlocking zeroes the anger; a
tick that observes the button released resets the hold stamp to zero; and
the tilt input of the tick has no influence on the resulting state, anger,
or emitted outputs while `LOCKED`. -/
theorem locked_exit (m : Machine) (i : Inputs) (hs : m.state = State.LOCKED) :
    ((loopStep m i).1.state = State.LOCKED ∨ (loopStep m i).1.state = State.IDLE) ∧
    ((loopStep m i).1.state = State.IDLE ↔
      tickRuns m i ∧ i.btnHigh = false ∧
        elapsed i.now (if m.holdAt = 0 then i.now else m.holdAt) 2000) ∧
    ((loopStep m i).1.state = State.IDLE → (loopStep m i).1.anger = 0) ∧
    (tickRuns m i → i.btnHigh = true → (loopStep m i).1.holdAt = 0) ∧
    ((loopStep m { i with tiltAct := !i.tiltAct }).1.state = (loopStep m i).1.state ∧
      (loopStep m { i with tiltAct := !i.tiltAct }).1.anger = (loopStep m i).1.anger ∧
      (loopStep m { i with tiltAct := !i.tiltAct }).2 = (loopStep m i).2) := by
  by_cases hrun : tickRuns m i
  · have hrun2 : tickRuns m { i with tiltAct := !i.tiltAct } := hrun
    rw [loopStep_run_LOCKED m i hrun hs,
      loopStep_run_LOCKED m { i with tiltAct := !i.tiltAct } hrun2 hs]
    refine ⟨?_, ?_, ?_, ?_, ?_, ?_, ?_⟩
    · rw [stepLOCKED_state]
      split_ifs <;> simp [hs]
    · rw [stepLOCKED_state]
      split_ifs <;> simp_all [hs, hrun]
    · rw [stepLOCKED_state, stepLOCKED_anger]
      split_ifs <;> simp [hs]
    · intro _ hbtn
      rw [stepLOCKED_holdAt]
      simp [hbtn]
    · rw [stepLOCKED_state, stepLOCKED_state]
      simp
    · rw [stepLOCKED_anger, stepLOCKED_anger]
      simp
    · rw [stepLOCKED_snd, stepLOCKED_snd]
      simp
  · have hrun2 : ¬ tickRuns m { i with tiltAct := !i.tiltAct } := hrun
    rw [loopStep_guard_fail m i hrun, loopStep_guard_fail m _ hrun2]
    refine ⟨Or.inl hs, ?_, ?_, ?_, rfl, rfl, rfl⟩
    · simp [hs, hrun]
    · simp [hs]
    · intro hr
      exact absurd hr hrun

/-- C4 witness at a concrete reachable-shape machine: a `LOCKED` machine that
has been holding the button since time 5000 unlocks at time 7300. -/
theorem locked_exit_witness :
    ((loopStep
          { state := State.LOCKED, anger := 3, enteredAt := 5000, nextBlinkAt := 5000,
            nextBeepAt := 5000, angryRedOn := true,
            tilt := TiltEdge.reset false 5000, btnStable := true, btnLastRaw := true,
            btnChangedAt := 0, holdAt := 5000, rngState := 1 }
          { now := 7300, tiltAct := false, btnHigh := false, pot := 0 }).1.state =
        State.IDLE ↔
      tickRuns
          { state := State.LOCKED, anger := 3, enteredAt := 5000, nextBlinkAt := 5000,
            nextBeepAt := 5000, angryRedOn := true,
            tilt := TiltEdge.reset false 5000, btnStable := true, btnLastRaw := true,
            btnChangedAt := 0, holdAt := 5000, rngState := 1 }
          { now := 7300, tiltAct := false, btnHigh := false, pot := 0 } ∧
        (false : Bool) = false ∧ elapsed 7300 (if (5000 : Nat) = 0 then 7300 else 5000) 2000) :=
  (locked_exit
      { state := State.LOCKED, anger := 3, enteredAt := 5000, nextBlinkAt := 5000,
        nextBeepAt := 5000, angryRedOn := true,
        tilt := TiltEdge.reset false 5000, btnStable := true, btnLastRaw := true,
        btnChangedAt := 0, holdAt := 5000, rngState := 1 }
      { now := 7300, tiltAct := false, btnHigh := false, pot := 0 } rfl).2.1

/-- C1: per tick (with net per-tick deltas), for every reachable state: anger
stays in `[0, MAX_ANGER]` (`Nat` excludes negatives); a net increase is
exactly `+1` and happens only when a tilt event fired while the state was
`ALERT`, `ANGRY` or `COOLDOWN` and anger was below `MAX_ANGER` (at
`MAX_ANGER` a tilt leaves it saturated); a net decrease is exactly `-1` and
happens only on the `ANGRY`→`COOLDOWN` transition; anger drops to `0` from a
value `≥ 2` only on the `LOCKED`→`IDLE` unlock; and no other change is
possible (the final disjunction). -/
theorem anger_evolution (m : Machine) (t0 : Nat) (i : Inputs) (h : Reach m t0)
    (ht : t0 ≤ i.now) (hpot : i.pot ≤ 1023) :
    m.anger ≤ MAX_ANGER ∧
    (loopStep m i).1.anger ≤ MAX_ANGER ∧
    ((loopStep m i).1.anger = m.anger + 1 →
      tiltFired m i ∧ m.anger < MAX_ANGER ∧
        (m.state = State.ALERT ∨ m.state = State.ANGRY ∨ m.state = State.COOLDOWN)) ∧
    (m.anger = (loopStep m i).1.anger + 1 →
      m.state = State.ANGRY ∧ (loopStep m i).1.state = State.COOLDOWN) ∧
    ((loopStep m i).1.anger = 0 → 2 ≤ m.anger →
      m.state = State.LOCKED ∧ (loopStep m i).1.state = State.IDLE) ∧
    (tiltFired m i →
      (m.state = State.ALERT ∨ m.state = State.ANGRY ∨ m.state = State.COOLDOWN) →
      m.anger = MAX_ANGER → (loopStep m i).1.anger = MAX_ANGER) ∧
    ((loopStep m i).1.anger = m.anger ∨ (loopStep m i).1.anger = m.anger + 1 ∨
      m.anger = (loopStep m i).1.anger + 1 ∨
      ((loopStep m i).1.anger = 0 ∧ m.state = State.LOCKED ∧
        (loopStep m i).1.state = State.IDLE)) := by
  obtain ⟨ih1, ih2, ih3, ih4, ih5, ih6⟩ := reach_inv h
  simp only [MAX_ANGER] at ih1 ih3 ⊢
  by_cases hrun : tickRuns m i
  case neg =>
    rw [loopStep_guard_fail m i hrun]
    dsimp only
    refine ⟨ih1, ih1, ?_, ?_, ?_, ?_, Or.inl rfl⟩
    · intro hc; omega
    · intro hc; omega
    · intro h0 h2; omega
    · intro htf
      exact absurd htf.1 hrun
  case pos =>
  cases hss : m.state
  case IDLE =>
    have hA : (loopStep m i).1.anger = m.anger := by
      rw [loopStep_run_IDLE m i hrun hss, stepIDLE_anger]
      simp
    refine ⟨ih1, ?_, ?_, ?_, ?_, ?_, Or.inl hA⟩
    · rw [hA]; exact ih1
    · rw [hA]; intro hc; omega
    · rw [hA]; intro hc; omega
    · rw [hA]; intro h0 h2; omega
    · intro _ hst _
      simp at hst
  case REWARD =>
    have hA : (loopStep m i).1.anger = m.anger := by
      rw [loopStep_run_REWARD m i hrun hss, stepREWARD_anger]
      simp
    refine ⟨ih1, ?_, ?_, ?_, ?_, ?_, Or.inl hA⟩
    · rw [hA]; exact ih1
    · rw [hA]; intro hc; omega
    · rw [hA]; intro hc; omega
    · rw [hA]; intro h0 h2; omega
    · intro _ hst _
      simp at hst
  case ALERT =>
    cases htl : (m.tilt.event m.state i.now i.tiltAct).1
    case false =>
      have hA : (loopStep m i).1.anger = m.anger := by
        rw [loopStep_run_ALERT m i hrun hss, stepALERT_anger]
        simp [htl]
      refine ⟨ih1, ?_, ?_, ?_, ?_, ?_, Or.inl hA⟩
      · rw [hA]; exact ih1
      · rw [hA]; intro hc; omega
      · rw [hA]; intro hc; omega
      · rw [hA]; intro h0 h2; omega
      · intro htf
        have hc := htf.2
        rw [htl] at hc
        exact Bool.noConfusion hc
    case true =>
      have hA : (loopStep m i).1.anger =
          if m.anger < 3 then m.anger + 1 else m.anger := by
        rw [loopStep_run_ALERT m i hrun hss, stepALERT_anger]
        simp [htl, MAX_ANGER]
      refine ⟨ih1, ?_, ?_, ?_, ?_, ?_, ?_⟩
      · rw [hA]; split_ifs <;> omega
      · rw [hA]; split_ifs with hlt <;> intro hc
        · exact ⟨⟨hrun, htl⟩, hlt, Or.inl rfl⟩
        · omega
      · rw [hA]; split_ifs <;> intro hc <;> first | omega | exact hc.elim
      · rw [hA]; split_ifs <;> intro h0 h2 <;> first | omega | exact h0.elim | exact h2.elim
      · intro _ _ h3
        rw [hA]
        split_ifs <;> omega
      · rw [hA]; split_ifs
        · right; left; rfl
        · left; rfl
  case COOLDOWN =>
    cases htl : (m.tilt.event m.state i.now i.tiltAct).1
    case false =>
      have hA : (loopStep m i).1.anger = m.anger := by
        rw [loopStep_run_COOLDOWN m i hrun hss, stepCOOLDOWN_anger]
        simp [htl]
      refine ⟨ih1, ?_, ?_, ?_, ?_, ?_, Or.inl hA⟩
      · rw [hA]; exact ih1
      · rw [hA]; intro hc; omega
      · rw [hA]; intro hc; omega
      · rw [hA]; intro h0 h2; omega
      · intro htf
        have hc := htf.2
        rw [htl] at hc
        exact Bool.noConfusion hc
    case true =>
      have hA : (loopStep m i).1.anger =
          if m.anger < 3 then m.anger + 1 else m.anger := by
        rw [loopStep_run_COOLDOWN m i hrun hss, stepCOOLDOWN_anger]
        simp [htl, MAX_ANGER]
      refine ⟨ih1, ?_, ?_, ?_, ?_, ?_, ?_⟩
      · rw [hA]; split_ifs <;> omega
      · rw [hA]; split_ifs with hlt <;> intro hc
        · exact ⟨⟨hrun, htl⟩, hlt, Or.inr (Or.inr rfl)⟩
        · omega
      · rw [hA]; split_ifs <;> intro hc <;> first | omega | exact hc.elim
      · rw [hA]; split_ifs <;> intro h0 h2 <;> first | omega | exact h0.elim | exact h2.elim
      · intro _ _ h3
        rw [hA]
        split_ifs <;> omega
      · rw [hA]; split_ifs
        · right; left; rfl
        · left; rfl
  case ANGRY =>
    have hang : 1 ≤ m.anger := ih2 hss
    cases htl : (m.tilt.event m.state i.now i.tiltAct).1
    case false =>
      have htl2 : (m.tilt.event State.ANGRY i.now i.tiltAct).1 = false := by
        rw [← hss]; exact htl
      have hA : (loopStep m i).1.anger =
          if 3 ≤ m.anger ∧ 1200 ≤ i.now - m.enteredAt then m.anger
          else if 15000 ≤ i.now - m.enteredAt then m.anger - 1
          else m.anger := by
        rw [loopStep_run_ANGRY m i hrun hss]
        simp [stepANGRY_anger, htl, htl2, MAX_ANGER, ANGRY_CALM_MS, elapsed]
        split_ifs <;> omega
      have hS : (loopStep m i).1.state =
          if 3 ≤ m.anger ∧ 1200 ≤ i.now - m.enteredAt then State.LOCKED
          else if 15000 ≤ i.now - m.enteredAt then State.COOLDOWN
          else State.ANGRY := by
        rw [loopStep_run_ANGRY m i hrun hss]
        simp [stepANGRY_state, htl, htl2, MAX_ANGER, ANGRY_CALM_MS, elapsed, hss]
      refine ⟨ih1, ?_, ?_, ?_, ?_, ?_, ?_⟩
      · rw [hA]; split_ifs <;> omega
      · rw [hA]; split_ifs <;> intro hc <;> first | omega | exact hc.elim
      · rw [hA, hS]; split_ifs <;> intro hc
        · omega
        · exact ⟨rfl, rfl⟩
        · omega
      · rw [hA]; split_ifs <;> intro h0 h2 <;> first | omega | exact h0.elim | exact h2.elim
      · intro htf
        have hc := htf.2
        rw [htl] at hc
        exact Bool.noConfusion hc
      · rw [hA]; split_ifs
        · left; rfl
        · right; right; left; omega
        · left; rfl
    case true =>
      have htl2 : (m.tilt.event State.ANGRY i.now i.tiltAct).1 = true := by
        rw [← hss]; exact htl
      by_cases hlt : m.anger < 3
      case pos =>
        have hA : (loopStep m i).1.anger =
            if 1200 ≤ i.now - m.enteredAt ∧ 3 ≤ m.anger + 1 then m.anger + 1
            else if 15000 ≤ i.now - m.enteredAt then m.anger
            else m.anger + 1 := by
          rw [loopStep_run_ANGRY m i hrun hss]
          simp [stepANGRY_anger, htl, htl2, hlt, MAX_ANGER, ANGRY_CALM_MS, elapsed]
          split_ifs <;> omega
        have hS : (loopStep m i).1.state =
            if 1200 ≤ i.now - m.enteredAt ∧ 3 ≤ m.anger + 1 then State.LOCKED
            else if 15000 ≤ i.now - m.enteredAt then State.COOLDOWN
            else State.ANGRY := by
          rw [loopStep_run_ANGRY m i hrun hss]
          simp [stepANGRY_state, htl, htl2, hlt, MAX_ANGER, ANGRY_CALM_MS, elapsed, hss]
          split_ifs <;> simp_all <;> omega
        refine ⟨ih1, ?_, ?_, ?_, ?_, ?_, ?_⟩
        · rw [hA]; split_ifs <;> omega
        · rw [hA]; split_ifs <;> intro hc
          · exact ⟨⟨hrun, htl⟩, hlt, Or.inr (Or.inl rfl)⟩
          · omega
          · exact ⟨⟨hrun, htl⟩, hlt, Or.inr (Or.inl rfl)⟩
        · rw [hA]; split_ifs <;> intro hc <;> first | omega | exact hc.elim
        · rw [hA]; split_ifs <;> intro h0 h2 <;> first | omega | exact h0.elim | exact h2.elim
        · intro _ _ h3; omega
        · rw [hA]; split_ifs
          · right; left; rfl
          · left; rfl
          · right; left; rfl
      case neg =>
        have hA : (loopStep m i).1.anger =
            if 1200 ≤ i.now - m.enteredAt then m.anger
            else if 15000 ≤ i.now - m.enteredAt then m.anger - 1
            else m.anger := by
          rw [loopStep_run_ANGRY m i hrun hss]
          simp [stepANGRY_anger, htl, htl2, hlt, MAX_ANGER, ANGRY_CALM_MS, elapsed]
          split_ifs <;> omega
        have hS : (loopStep m i).1.state =
            if 1200 ≤ i.now - m.enteredAt then State.LOCKED
            else if 15000 ≤ i.now - m.enteredAt then State.COOLDOWN
            else State.ANGRY := by
          rw [loopStep_run_ANGRY m i hrun hss]
          simp [stepANGRY_state, htl, htl2, hlt, MAX_ANGER, ANGRY_CALM_MS, elapsed, hss]
          split_ifs <;> simp_all <;> omega
        refine ⟨ih1, ?_, ?_, ?_, ?_, ?_, ?_⟩
        · rw [hA]; split_ifs <;> omega
        · rw [hA]; split_ifs <;> intro hc <;> first | omega | exact hc.elim
        · rw [hA, hS]; split_ifs <;> intro hc <;> first | omega | exact hc.elim
        · rw [hA]; split_ifs <;> intro h0 h2 <;> first | omega | exact h0.elim | exact h2.elim
        · intro _ _ h3
          rw [hA]
          split_ifs <;> omega
        · rw [hA]; split_ifs
          · left; rfl
          · right; right; left; omega
          · left; rfl
  case LOCKED =>
    have hsat : m.anger = 3 := ih3 hss
    have hA : (loopStep m i).1.anger =
        if i.btnHigh = false ∧
            2000 ≤ i.now - (if m.holdAt = 0 then i.now else m.holdAt) then 0
        else m.anger := by
      rw [loopStep_run_LOCKED m i hrun hss]
      simp [stepLOCKED_anger, elapsed]
    have hS : (loopStep m i).1.state =
        if i.btnHigh = false ∧
            2000 ≤ i.now - (if m.holdAt = 0 then i.now else m.holdAt) then State.IDLE
        else State.LOCKED := by
      rw [loopStep_run_LOCKED m i hrun hss]
      simp [stepLOCKED_state, elapsed, hss]
    refine ⟨ih1, ?_, ?_, ?_, ?_, ?_, ?_⟩
    · rw [hA]; split_ifs <;> omega
    · rw [hA]; split_ifs <;> intro hc <;> first | omega | exact hc.elim
    · rw [hA, hS]; split_ifs <;> intro hc <;> first | omega | exact hc.elim
    · rw [hA, hS]
      split_ifs <;> intro h0 h2 <;> first | exact ⟨rfl, rfl⟩ | omega
    · intro _ hst _
      simp at hst
    · rw [hA, hS]
      split_ifs <;>
        first
          | exact Or.inl rfl
          | exact Or.inr (Or.inr (Or.inr ⟨rfl, rfl, rfl⟩))

/-- The run of test vectors reaches `mW9` at clock 3900. -/
theorem reach_mW9 : Reach mW9 3900 :=
  Reach.step mW8 3800 (inW 3900 true)
    (Reach.step mW7 3700 (inW 3800 true)
      (Reach.step mW6 3500 (inW 3700 false)
        (Reach.step mW5 3400 (inW 3500 false)
          (Reach.step mW4 3100 (inW 3400 false)
            (Reach.step mW3 3000 (inW 3100 true)
              (Reach.step mW2 2000 (inW 3000 true)
                (Reach.step mW1 1000 (inW 2000 false)
                  (Reach.step mW0 0 (inW 1000 false)
                    (Reach.boot 0 0 false 0 (by decide) (by decide))
                    (by decide) (by decide))
                  (by decide) (by decide))
                (by decide) (by decide))
              (by decide) (by decide))
            (by decide) (by decide))
          (by decide) (by decide))
        (by decide) (by decide))
      (by decide) (by decide))
    (by decide) (by decide)

/-- A tick of the `ANGRY` arm, fully characterized over the pre-tick fields:
the post-tilt anger is `m.anger + 1` capped at `MAX_ANGER` when the tilt
event fired; the lockout fires when that value reaches `MAX_ANGER` with
dwell ≥ 1200 ms, the calm-down when dwell ≥ `ANGRY_CALM_MS`, and otherwise
the machine stays `ANGRY` with its entry timestamp untouched. -/
theorem loopStep_ANGRY_char (m : Machine) (i : Inputs) (hrun : tickRuns m i)
    (hss : m.state = State.ANGRY) :
    ((loopStep m i).1.anger =
      if MAX_ANGER ≤ (if (m.tilt.event m.state i.now i.tiltAct).1 = true ∧
              m.anger < MAX_ANGER then m.anger + 1 else m.anger) ∧
          1200 ≤ i.now - m.enteredAt then
        (if (m.tilt.event m.state i.now i.tiltAct).1 = true ∧
            m.anger < MAX_ANGER then m.anger + 1 else m.anger)
      else if ANGRY_CALM_MS ≤ i.now - m.enteredAt then
        (if (m.tilt.event m.state i.now i.tiltAct).1 = true ∧
            m.anger < MAX_ANGER then m.anger + 1 else m.anger) - 1
      else
        (if (m.tilt.event m.state i.now i.tiltAct).1 = true ∧
            m.anger < MAX_ANGER then m.anger + 1 else m.anger)) ∧
    ((loopStep m i).1.state =
      if MAX_ANGER ≤ (if (m.tilt.event m.state i.now i.tiltAct).1 = true ∧
              m.anger < MAX_ANGER then m.anger + 1 else m.anger) ∧
          1200 ≤ i.now - m.enteredAt then State.LOCKED
      else if ANGRY_CALM_MS ≤ i.now - m.enteredAt then State.COOLDOWN
      else State.ANGRY) ∧
    ((loopStep m i).1.enteredAt =
      if MAX_ANGER ≤ (if (m.tilt.event m.state i.now i.tiltAct).1 = true ∧
              m.anger < MAX_ANGER then m.anger + 1 else m.anger) ∧
          1200 ≤ i.now - m.enteredAt then i.now
      else if ANGRY_CALM_MS ≤ i.now - m.enteredAt then i.now
      else m.enteredAt) := by
  refine ⟨?_, ?_, ?_⟩
  · rw [loopStep_run_ANGRY m i hrun hss, stepANGRY_anger]
    cases htl : (m.tilt.event m.state i.now i.tiltAct).1 <;>
      simp [elapsed, MAX_ANGER, ANGRY_CALM_MS] <;> split_ifs <;>
        first | omega | simp_all
  · rw [loopStep_run_ANGRY m i hrun hss, stepANGRY_state]
    cases htl : (m.tilt.event m.state i.now i.tiltAct).1 <;>
      simp [elapsed, MAX_ANGER, ANGRY_CALM_MS] <;> split_ifs <;>
        first | rfl | exact hss | omega | simp_all
  · rw [loopStep_run_ANGRY m i hrun hss, stepANGRY_enteredAt]
    cases htl : (m.tilt.event m.state i.now i.tiltAct).1 <;>
      simp [elapsed, MAX_ANGER, ANGRY_CALM_MS] <;> split_ifs <;>
        first | rfl | omega | simp_all

/-- C1 witness: the claim instantiated at the boot machine and a quiet tick
at 1000 ms. -/
theorem anger_evolution_witness :
    mW0.anger ≤ MAX_ANGER ∧
    (loopStep mW0 (inW 1000 false)).1.anger ≤ MAX_ANGER ∧
    ((loopStep mW0 (inW 1000 false)).1.anger = mW0.anger + 1 →
      tiltFired mW0 (inW 1000 false) ∧ mW0.anger < MAX_ANGER ∧
        (mW0.state = State.ALERT ∨ mW0.state = State.ANGRY ∨
          mW0.state = State.COOLDOWN)) ∧
    (mW0.anger = (loopStep mW0 (inW 1000 false)).1.anger + 1 →
      mW0.state = State.ANGRY ∧
        (loopStep mW0 (inW 1000 false)).1.state = State.COOLDOWN) ∧
    ((loopStep mW0 (inW 1000 false)).1.anger = 0 → 2 ≤ mW0.anger →
      mW0.state = State.LOCKED ∧
        (loopStep mW0 (inW 1000 false)).1.state = State.IDLE) ∧
    (tiltFired mW0 (inW 1000 false) →
      (mW0.state = State.ALERT ∨ mW0.state = State.ANGRY ∨
        mW0.state = State.COOLDOWN) →
      mW0.anger = MAX_ANGER →
      (loopStep mW0 (inW 1000 false)).1.anger = MAX_ANGER) ∧
    ((loopStep mW0 (inW 1000 false)).1.anger = mW0.anger ∨
      (loopStep mW0 (inW 1000 false)).1.anger = mW0.anger + 1 ∨
      mW0.anger = (loopStep mW0 (inW 1000 false)).1.anger + 1 ∨
      ((loopStep mW0 (inW 1000 false)).1.anger = 0 ∧ mW0.state = State.LOCKED ∧
        (loopStep mW0 (inW 1000 false)).1.state = State.IDLE)) :=
  anger_evolution mW0 0 (inW 1000 false)
    (Reach.boot 0 0 false 0 (by decide) (by decide)) (by decide) (by decide)

/-- C2: from a reachable `ANGRY` state, the tick transitions to `LOCKED`
exactly when the tick ran, the anger value after this tick's tilt-driven
increment equals `MAX_ANGER`, and at least 1200 ms have elapsed since
`ANGRY` was entered; and a tick that stays in `ANGRY` (tilt rebukes
included) leaves the `ANGRY` entry timestamp untouched, so the dwell clock
keeps running across tilt events. -/
theorem angry_to_locked (m : Machine) (t0 : Nat) (i : Inputs) (h : Reach m t0)
    (ht : t0 ≤ i.now) (hpot : i.pot ≤ 1023) (hs : m.state = State.ANGRY) :
    ((loopStep m i).1.state = State.LOCKED ↔
      tickRuns m i ∧
        (if tiltFired m i ∧ m.anger < MAX_ANGER then m.anger + 1 else m.anger) =
          MAX_ANGER ∧
        1200 ≤ i.now - m.enteredAt) ∧
    ((loopStep m i).1.state = State.ANGRY →
      (loopStep m i).1.enteredAt = m.enteredAt) := by
  obtain ⟨ih1, ih2, _, _, _, _⟩ := reach_inv h
  have hang : 1 ≤ m.anger := ih2 hs
  by_cases hrun : tickRuns m i
  case neg =>
    rw [loopStep_guard_fail m i hrun]
    constructor
    · simp only [hs]
      constructor
      · intro hc
        exact absurd hc (by decide)
      · intro hc
        exact absurd hc.1 hrun
    · intro _
      rfl
  case pos =>
    obtain ⟨hA, hS, hE⟩ := loopStep_ANGRY_char m i hrun hs
    have hiff : (tiltFired m i ∧ m.anger < MAX_ANGER) ↔
        ((m.tilt.event m.state i.now i.tiltAct).1 = true ∧ m.anger < MAX_ANGER) := by
      simp [tiltFired, hrun]
    rw [hS, hE]
    simp only [MAX_ANGER] at *
    constructor
    · rw [if_congr hiff rfl rfl]
      split_ifs with h1 h2 <;> simp [hrun] <;> omega
    · split_ifs <;> intro hc <;> first | rfl | exact absurd hc (by decide)

/-- C2 witness: the reachable `ANGRY` machine `mW9` (anger 1) does not lock
on a quiet tick at 4200 ms, matching the characterization. -/
theorem angry_to_locked_witness :
    ((loopStep mW9 (inW 4200 false)).1.state = State.LOCKED ↔
      tickRuns mW9 (inW 4200 false) ∧
        (if tiltFired mW9 (inW 4200 false) ∧ mW9.anger < MAX_ANGER then
            mW9.anger + 1
          else mW9.anger) = MAX_ANGER ∧
        1200 ≤ (inW 4200 false).now - mW9.enteredAt) ∧
    ((loopStep mW9 (inW 4200 false)).1.state = State.ANGRY →
      (loopStep mW9 (inW 4200 false)).1.enteredAt = mW9.enteredAt) :=
  angry_to_locked mW9 3900 (inW 4200 false) reach_mW9 (by decide) (by decide)
    (by decide)

/-- C9: a reachable `ANGRY` state always has anger ≥ 1 (both entries into
`ANGRY` increment before entering and tilt events only increase it), so on
the `ANGRY`→`COOLDOWN` transition the guarded decrement `if (anger) anger--`
subtracts exactly 1 from the post-tilt anger, never silently skipping. -/
theorem angry_anger_positive (m : Machine) (t0 : Nat) (i : Inputs)
    (h : Reach m t0) (ht : t0 ≤ i.now) (hpot : i.pot ≤ 1023) :
    (m.state = State.ANGRY → 1 ≤ m.anger) ∧
    (m.state = State.ANGRY → (loopStep m i).1.state = State.COOLDOWN →
      1 ≤ (if tiltFired m i ∧ m.anger < MAX_ANGER then m.anger + 1 else m.anger) ∧
      (if tiltFired m i ∧ m.anger < MAX_ANGER then m.anger + 1 else m.anger) =
        (loopStep m i).1.anger + 1) := by
  obtain ⟨ih1, ih2, _, _, _, _⟩ := reach_inv h
  refine ⟨ih2, ?_⟩
  intro hs hsc
  have hang : 1 ≤ m.anger := ih2 hs
  by_cases hrun : tickRuns m i
  case neg =>
    rw [loopStep_guard_fail m i hrun] at hsc
    rw [hs] at hsc
    exact absurd hsc (by decide)
  case pos =>
    obtain ⟨hA, hS, hE⟩ := loopStep_ANGRY_char m i hrun hs
    have hiff : (tiltFired m i ∧ m.anger < MAX_ANGER) ↔
        ((m.tilt.event m.state i.now i.tiltAct).1 = true ∧ m.anger < MAX_ANGER) := by
      simp [tiltFired, hrun]
    rw [hS] at hsc
    rw [hA, if_congr hiff rfl rfl]
    simp only [MAX_ANGER] at *
    split_ifs at hsc ⊢ <;>
      first
        | exact absurd hsc (by decide)
        | constructor <;> omega

/-- C9 witness: instantiated at the reachable `ANGRY` machine `mW9` with a
quiet tick at 4200 ms. -/
theorem angry_anger_positive_witness :
    (mW9.state = State.ANGRY → 1 ≤ mW9.anger) ∧
    (mW9.state = State.ANGRY →
      (loopStep mW9 (inW 4200 false)).1.state = State.COOLDOWN →
      1 ≤ (if tiltFired mW9 (inW 4200 false) ∧ mW9.anger < MAX_ANGER then
            mW9.anger + 1
          else mW9.anger) ∧
      (if tiltFired mW9 (inW 4200 false) ∧ mW9.anger < MAX_ANGER then
          mW9.anger + 1
        else mW9.anger) =
        (loopStep mW9 (inW 4200 false)).1.anger + 1) :=
  angry_anger_positive mW9 3900 (inW 4200 false) reach_mW9 (by decide) (by decide)

/-! ## Tilt edge detector lemmas -/

/-- A firing poll: the detector was armed before the poll, the reading is
active, unchanged since the previous poll and stable for the full
state-dependent debounce window; and the poll leaves the detector disarmed
with its inactivity tracking cleared. -/
theorem event_fire_facts (te : TiltEdge) (s : State) (n : Nat) (act : Bool)
    (hf : (te.event s n act).1 = true) :
    te.armed = true ∧ act = true ∧ te.lastRawAct = act ∧
    needDb s ≤ n - te.changedAt ∧
    (te.event s n act).2.armed = false ∧
    (te.event s n act).2.inactiveSince = 0 := by
  have hdb : 0 < needDb s := by
    simp only [needDb, TILT_DB_IDLE_MS, TILT_DB_OTHER_MS]
    split_ifs <;> norm_num
  simp only [TiltEdge.event, elapsed] at hf ⊢
  split_ifs at hf ⊢ <;> simp_all <;> omega

/-- The first poll after a `reset()` never fires (the detector is disarmed,
and a single poll cannot both re-arm — which needs an inactive reading —
and fire — which needs an active one). -/
theorem event_after_reset (a : Bool) (t0 : Nat) (s : State) (n : Nat)
    (act : Bool) : (TiltEdge.event (TiltEdge.reset a t0) s n act).1 = false := by
  by_cases hf : (TiltEdge.event (TiltEdge.reset a t0) s n act).1 = true
  · have harm := (event_fire_facts _ s n act hf).1
    simp [TiltEdge.reset] at harm
  · revert hf
    cases (TiltEdge.event (TiltEdge.reset a t0) s n act).1 <;> simp

set_option maxHeartbeats 1000000 in
/-- One poll preserves the re-arm invariant: if being armed implies the
clock has passed `t0 + TILT_REARM_MS`, and any tracked inactivity start is
`≥ t0`, the same holds after the poll at time `n ≥ t0`. -/
theorem event_step_rearm (te : TiltEdge) (s : State) (n : Nat) (act : Bool)
    (t0 : Nat) (hn : t0 ≤ n)
    (ha : te.armed = true → t0 + TILT_REARM_MS ≤ n)
    (hi : te.inactiveSince ≠ 0 → t0 ≤ te.inactiveSince) :
    ((te.event s n act).2.armed = true → t0 + TILT_REARM_MS ≤ n) ∧
    ((te.event s n act).2.inactiveSince ≠ 0 →
      t0 ≤ (te.event s n act).2.inactiveSince) := by
  simp only [TILT_REARM_MS] at *
  by_cases harm : te.armed = true
  · have hA := ha harm
    by_cases hz : te.inactiveSince = 0
    · clear ha hi
      constructor <;>
        · simp only [TiltEdge.event, elapsed, TILT_REARM_MS]
          split_ifs <;> simp_all <;> omega
    · have hI := hi hz
      clear ha hi
      constructor <;>
        · simp only [TiltEdge.event, elapsed, TILT_REARM_MS]
          split_ifs <;> simp_all <;> omega
  · have harm2 : te.armed = false := by
      revert harm; cases te.armed <;> simp
    clear harm
    by_cases hz : te.inactiveSince = 0
    · clear ha hi
      constructor <;>
        · simp only [TiltEdge.event, elapsed, TILT_REARM_MS]
          split_ifs <;> simp_all <;> omega
    · have hI := hi hz
      clear ha hi
      constructor <;>
        · simp only [TiltEdge.event, elapsed, TILT_REARM_MS]
          split_ifs <;> simp_all <;> omega

/-- Along any chronologically ordered poll trace started from a detector
with `armed = false` and no tracked inactivity before `t0` (in particular
the state a firing poll leaves behind), every fire happens at time
`≥ t0 + TILT_REARM_MS`. -/
theorem fireTimes_ge (s : State) (t0 : Nat) :
    ∀ (tr : List (Nat × Bool)) (te : TiltEdge) (tc : Nat), t0 ≤ tc →
      (te.armed = true → t0 + TILT_REARM_MS ≤ tc) →
      (te.inactiveSince ≠ 0 → t0 ≤ te.inactiveSince) →
      List.Chain (fun a b => a ≤ b) tc (tr.map Prod.fst) →
      ∀ x ∈ fireTimes te s tr, t0 + TILT_REARM_MS ≤ x := by
  intro tr
  induction tr with
  | nil =>
    intro te tc h1 h2 h3 hch x hx
    simp [fireTimes] at hx
  | cons p rest ih =>
    intro te tc h1 h2 h3 hch x hx
    obtain ⟨n, act⟩ := p
    rw [List.map_cons, List.chain_cons] at hch
    obtain ⟨htcn, hch2⟩ := hch
    simp only [fireTimes] at hx
    by_cases hfire : (te.event s n act).1 = true
    · rw [if_pos hfire] at hx
      rcases List.mem_cons.mp hx with hx1 | hx2
      · rw [hx1]
        exact le_trans (h2 (event_fire_facts te s n act hfire).1) htcn
      · have hff := event_fire_facts te s n act hfire
        refine ih (te.event s n act).2 n (le_trans h1 htcn) ?_ ?_ hch2 x hx2
        · intro hc
          rw [hff.2.2.2.2.1] at hc
          exact Bool.noConfusion hc
        · intro hc
          rw [hff.2.2.2.2.2] at hc
          exact absurd rfl hc
    · have hfire2 : (te.event s n act).1 = false := by
        revert hfire; cases (te.event s n act).1 <;> simp
      rw [hfire2] at hx
      simp only [Bool.false_eq_true, if_false] at hx
      obtain ⟨ha2, hi2⟩ := event_step_rearm te s n act t0 (le_trans h1 htcn)
        (fun hh => le_trans (h2 hh) htcn) h3
      exact ih (te.event s n act).2 n (le_trans h1 htcn) ha2 hi2 hch2 x hx

/-- Exhaustive one-poll case analysis of `TiltEdge::event` for a disarmed
detector: no fire is possible; an unstable poll only edge-synchronizes; a
stable active poll clears `inactiveSince`; a stable inactive poll stamps
`inactiveSince` when it was clear, and re-arms exactly when the tracked
inactivity run has lasted the full `TILT_REARM_MS`. -/
theorem event_disarmed_cases (te : TiltEdge) (s : State) (n : Nat) (act : Bool)
    (h : te.armed = false) :
    (te.event s n act).1 = false ∧
    ((stablePoll te s n act = false ∧
        (te.event s n act).2.armed = false ∧
        (te.event s n act).2.inactiveSince = te.inactiveSince) ∨
     (stablePoll te s n act = true ∧ act = true ∧
        (te.event s n act).2.armed = false ∧
        (te.event s n act).2.inactiveSince = 0) ∨
     (stablePoll te s n act = true ∧ act = false ∧ te.inactiveSince = 0 ∧
        (te.event s n act).2.armed = false ∧
        (te.event s n act).2.inactiveSince = n) ∨
     (stablePoll te s n act = true ∧ act = false ∧ te.inactiveSince ≠ 0 ∧
        ¬ elapsed n te.inactiveSince TILT_REARM_MS ∧
        (te.event s n act).2.armed = false ∧
        (te.event s n act).2.inactiveSince = te.inactiveSince) ∨
     (stablePoll te s n act = true ∧ act = false ∧ te.inactiveSince ≠ 0 ∧
        elapsed n te.inactiveSince TILT_REARM_MS ∧
        (te.event s n act).2.armed = true ∧
        (te.event s n act).2.inactiveSince = te.inactiveSince)) := by
  simp only [TiltEdge.event, TiltEdge.sync, stablePoll, elapsed, TILT_REARM_MS]
  split_ifs <;> simp_all

/-- Any fire reached from a disarmed detector requires observed re-arm
evidence inside the poll trace: either a full quiet span — a stable
inactive stamping poll at `v`, a stable inactive re-arming poll at
`r ≥ v + TILT_REARM_MS`, with every debounce-stable poll in between
inactive — or, when an inactivity run was already being tracked at
`te.inactiveSince`, the completion of that run. -/
theorem fires_need_rearm (s : State) :
    ∀ (tr : List (Nat × Bool)) (te : TiltEdge), te.armed = false →
      ∀ x ∈ fireTimes te s tr,
        (∃ pre mid post v r,
          tr = pre ++ (v, false) :: mid ++ (r, false) :: post ∧
          v + TILT_REARM_MS ≤ r ∧
          stablePoll (runTilt te s pre) s v false = true ∧
          quietStable (runTilt te s pre) s ((v, false) :: mid) = true ∧
          stablePoll (runTilt te s (pre ++ (v, false) :: mid)) s r false = true ∧
          x ∈ fireTimes (runTilt te s (pre ++ (v, false) :: mid ++ [(r, false)]))
            s post) ∨
        (te.inactiveSince ≠ 0 ∧
          ∃ mid post r,
            tr = mid ++ (r, false) :: post ∧
            te.inactiveSince + TILT_REARM_MS ≤ r ∧
            quietStable te s mid = true ∧
            stablePoll (runTilt te s mid) s r false = true ∧
            x ∈ fireTimes (runTilt te s (mid ++ [(r, false)])) s post) := by
  intro tr
  induction tr with
  | nil => intro te h x hx; simp [fireTimes] at hx
  | cons p rest ih =>
    intro te h x hx
    obtain ⟨n, act⟩ := p
    obtain ⟨hnf, hcases⟩ := event_disarmed_cases te s n act h
    simp only [fireTimes] at hx
    rw [hnf] at hx
    simp only [Bool.false_eq_true, if_false] at hx
    rcases hcases with ⟨hst, ha2, hi2⟩ | ⟨hst, hact, ha2, hi2⟩ |
      ⟨hst, hact, hz, ha2, hi2⟩ | ⟨hst, hact, hz, hnre, ha2, hi2⟩ |
      ⟨hst, hact, hz, hre, ha2, hi2⟩
    · rcases ih (te.event s n act).2 ha2 x hx with
        ⟨pre, mid, post, v, r, hdec, hge, hsp1, hq, hsp2, hx2⟩ |
        ⟨hne, mid, post, r, hdec, hge, hq, hsp2, hx2⟩
      · exact Or.inl ⟨(n, act) :: pre, mid, post, v, r, by simp [hdec],
          hge, hsp1, hq, hsp2, hx2⟩
      · refine Or.inr ⟨fun hc => hne (hi2.trans hc), (n, act) :: mid, post, r,
          by simp [hdec], ?_, by simp [quietStable, hst, hq], hsp2, hx2⟩
        rw [← hi2]; exact hge
    · rcases ih (te.event s n act).2 ha2 x hx with
        ⟨pre, mid, post, v, r, hdec, hge, hsp1, hq, hsp2, hx2⟩ |
        ⟨hne, mid, post, r, hdec, hge, hq, hsp2, hx2⟩
      · exact Or.inl ⟨(n, act) :: pre, mid, post, v, r, by simp [hdec],
          hge, hsp1, hq, hsp2, hx2⟩
      · exact absurd hi2 hne
    · subst hact
      rcases ih (te.event s n false).2 ha2 x hx with
        ⟨pre, mid, post, v, r, hdec, hge, hsp1, hq, hsp2, hx2⟩ |
        ⟨hne, mid, post, r, hdec, hge, hq, hsp2, hx2⟩
      · exact Or.inl ⟨(n, false) :: pre, mid, post, v, r, by simp [hdec],
          hge, hsp1, hq, hsp2, hx2⟩
      · refine Or.inl ⟨[], mid, post, n, r, by simp [hdec], ?_, hst,
          by simp [quietStable, runTilt, hq], hsp2, hx2⟩
        rw [← hi2]; exact hge
    · subst hact
      rcases ih (te.event s n false).2 ha2 x hx with
        ⟨pre, mid, post, v, r, hdec, hge, hsp1, hq, hsp2, hx2⟩ |
        ⟨hne, mid, post, r, hdec, hge, hq, hsp2, hx2⟩
      · exact Or.inl ⟨(n, false) :: pre, mid, post, v, r, by simp [hdec],
          hge, hsp1, hq, hsp2, hx2⟩
      · refine Or.inr ⟨fun hc => hne (hi2.trans hc), (n, false) :: mid, post, r,
          by simp [hdec], ?_, by simp [quietStable, hq], hsp2, hx2⟩
        rw [← hi2]; exact hge
    · subst hact
      refine Or.inr ⟨hz, [], rest, n, by simp, ?_, rfl, hst, hx⟩
      simp only [elapsed, TILT_REARM_MS] at hre ⊢
      omega

/-- A fire timestamp is the timestamp of one of the trace polls. -/
theorem fireTimes_mem_times (s : State) :
    ∀ (tr : List (Nat × Bool)) (te : TiltEdge) (x : Nat),
      x ∈ fireTimes te s tr → x ∈ tr.map Prod.fst := by
  intro tr
  induction tr with
  | nil => intro te x hx; simp [fireTimes] at hx
  | cons p rest ih =>
    intro te x hx
    obtain ⟨n, act⟩ := p
    simp only [fireTimes] at hx
    by_cases hfr : (te.event s n act).1 = true
    · rw [if_pos hfr] at hx
      rcases List.mem_cons.mp hx with h1 | h1
      · simp [h1]
      · simp [ih _ x h1]
    · rw [if_neg hfr] at hx
      simp [ih _ x hx]

/-- In a chronologically ordered chain, the head bounds every member. -/
theorem chain_le_mem (a : Nat) :
    ∀ (l : List Nat), List.Chain (fun u v => u ≤ v) a l → ∀ b ∈ l, a ≤ b := by
  intro l
  induction l generalizing a with
  | nil => intro h b hb; simp at hb
  | cons c rest ih =>
    intro h b hb
    rw [List.chain_cons] at h
    rcases List.mem_cons.mp hb with h1 | h1
    · rw [h1]; exact h.1
    · exact le_trans h.1 (ih c h.2 b h1)

/-- C7: the detector fires at most once per qualifying disturbance. A firing
poll happens only with `armed = true` and a stable active reading (stable
for the whole debounce window — raw bounces within one window keep
re-stamping `changedAt`, so no poll inside the window can fire); the firing
poll itself clears `armed` and the inactivity tracking; and starting from
such a post-fire detector state, any fire `x` along a chronologically
ordered poll trace whose times are `≥ t0` both happens at
`t0 + TILT_REARM_MS` (140 ms) or later and requires the detector to have
observed, strictly between the two fires, a full re-arm span of continuous
stable inactivity: a debounce-stable inactive poll at some `v ≥ t0`, a
debounce-stable inactive re-arming poll at some `r ≥ v + TILT_REARM_MS`
with `r ≤ x`, and only inactive readings at every debounce-stable poll in
between — so a held-active sensor, which never yields a stable inactive
poll, can never retrigger. -/
theorem tilt_single_fire (te : TiltEdge) (s : State) (n : Nat) (act : Bool)
    (hf : (te.event s n act).1 = true)
    (te0 : TiltEdge) (s2 : State) (t0 : Nat) (tr : List (Nat × Bool))
    (h0 : te0.armed = false) (h1 : te0.inactiveSince = 0)
    (hch : List.Chain (fun a b => a ≤ b) t0 (tr.map Prod.fst))
    (x : Nat) (hx : x ∈ fireTimes te0 s2 tr) :
    te.armed = true ∧ act = true ∧ te.lastRawAct = act ∧
    needDb s ≤ n - te.changedAt ∧
    (te.event s n act).2.armed = false ∧
    (te.event s n act).2.inactiveSince = 0 ∧
    t0 + TILT_REARM_MS ≤ x ∧
    ∃ pre mid post v r,
      tr = pre ++ (v, false) :: mid ++ (r, false) :: post ∧
      t0 ≤ v ∧ v + TILT_REARM_MS ≤ r ∧ r ≤ x ∧
      stablePoll (runTilt te0 s2 pre) s2 v false = true ∧
      quietStable (runTilt te0 s2 pre) s2 ((v, false) :: mid) = true ∧
      stablePoll (runTilt te0 s2 (pre ++ (v, false) :: mid)) s2 r false = true ∧
      x ∈ fireTimes (runTilt te0 s2 (pre ++ (v, false) :: mid ++ [(r, false)]))
        s2 post := by
  obtain ⟨f1, f2, f3, f4, f5, f6⟩ := event_fire_facts te s n act hf
  rcases fires_need_rearm s2 tr te0 h0 x hx with
    ⟨pre, mid, post, v, r, hdec, hge, hsp1, hq, hsp2, hx2⟩ | ⟨hne, _⟩
  · have hmem : v ∈ tr.map Prod.fst := by simp [hdec]
    have htv : t0 ≤ v := chain_le_mem t0 _ hch v hmem
    have hch2 : List.Chain (fun a b => a ≤ b) r (post.map Prod.fst) := by
      rw [hdec] at hch
      simp only [List.map_append, List.map_cons] at hch
      exact (List.chain_split.mp hch).2
    have hrx : r ≤ x :=
      chain_le_mem r _ hch2 x (fireTimes_mem_times s2 post _ x hx2)
    exact ⟨f1, f2, f3, f4, f5, f6, by omega,
      pre, mid, post, v, r, hdec, htv, hge, hrx, hsp1, hq, hsp2, hx2⟩
  · exact absurd h1 hne

/-- C7 witness: a concrete armed detector fires at poll time 20, and on a
concrete post-fire trace (stably quiet from 200, re-armed at 360, tilted at
400–420) the one fire at 420 respects the 140 ms re-arm gap and exhibits
the observed span of stable inactivity. -/
theorem tilt_single_fire_witness :
    (⟨true, 0, true, 0⟩ : TiltEdge).armed = true ∧ true = true ∧
    (⟨true, 0, true, 0⟩ : TiltEdge).lastRawAct = true ∧
    needDb State.ALERT ≤ 20 - (⟨true, 0, true, 0⟩ : TiltEdge).changedAt ∧
    (TiltEdge.event ⟨true, 0, true, 0⟩ State.ALERT 20 true).2.armed = false ∧
    (TiltEdge.event ⟨true, 0, true, 0⟩ State.ALERT 20 true).2.inactiveSince
      = 0 ∧
    0 + TILT_REARM_MS ≤ 420 ∧
    ∃ pre mid post v r,
      [((0 : Nat), false), (200, false), (360, false), (400, true),
          (420, true)] =
        pre ++ (v, false) :: mid ++ (r, false) :: post ∧
      0 ≤ v ∧ v + TILT_REARM_MS ≤ r ∧ r ≤ 420 ∧
      stablePoll (runTilt ⟨true, 0, false, 0⟩ State.ALERT pre) State.ALERT
        v false = true ∧
      quietStable (runTilt ⟨true, 0, false, 0⟩ State.ALERT pre) State.ALERT
        ((v, false) :: mid) = true ∧
      stablePoll
        (runTilt ⟨true, 0, false, 0⟩ State.ALERT (pre ++ (v, false) :: mid))
        State.ALERT r false = true ∧
      420 ∈ fireTimes
        (runTilt ⟨true, 0, false, 0⟩ State.ALERT
          (pre ++ (v, false) :: mid ++ [(r, false)]))
        State.ALERT post :=
  tilt_single_fire ⟨true, 0, true, 0⟩ State.ALERT 20 true (by decide)
    ⟨true, 0, false, 0⟩ State.ALERT 0
    [(0, false), (200, false), (360, false), (400, true), (420, true)]
    (by decide) (by decide) (by norm_num [List.chain_cons]) 420 (by decide)

/-- C8: the detector accepts a reading only after it has been stable for the
state-dependent debounce window — `TILT_DB_IDLE_MS` (5 ms) in `IDLE`,
`TILT_DB_OTHER_MS` (14 ms) in every other state; every state-changing tick
leaves the tilt detector in exactly the `reset()` state — disarmed,
inactivity cleared, `lastRawAct` resynchronized to the tick's raw reading
and `changedAt` stamped with the tick's clock; and a detector fresh out of
`reset()` can never fire on its next poll, so no stale edge from the
previous state fires in the new one. -/
theorem tilt_reset_on_entry (m : Machine) (i : Inputs)
    (htr : (loopStep m i).1.state ≠ m.state)
    (te : TiltEdge) (s : State) (n : Nat) (act : Bool)
    (hf : (te.event s n act).1 = true)
    (a : Bool) (t0 : Nat) (s2 : State) (n2 : Nat) (act2 : Bool) :
    (loopStep m i).1.tilt = TiltEdge.reset i.tiltAct i.now ∧
    TiltEdge.reset i.tiltAct i.now =
      { lastRawAct := i.tiltAct, changedAt := i.now, armed := false,
        inactiveSince := 0 } ∧
    (if s = State.IDLE then TILT_DB_IDLE_MS else TILT_DB_OTHER_MS) ≤
      n - te.changedAt ∧
    te.lastRawAct = act ∧
    (TiltEdge.event (TiltEdge.reset a t0) s2 n2 act2).1 = false := by
  obtain ⟨_, _, f3, f4, _, _⟩ := event_fire_facts te s n act hf
  refine ⟨?_, rfl, by simpa [needDb] using f4, f3, event_after_reset a t0 s2 n2 act2⟩
  by_cases hrun : tickRuns m i
  case neg =>
    rw [loopStep_guard_fail m i hrun] at htr
    exact absurd rfl htr
  case pos =>
    cases hss : m.state
    case IDLE =>
      rw [loopStep_run_IDLE m i hrun hss] at htr ⊢
      rw [stepIDLE_state] at htr
      rw [stepIDLE_tilt]
      split_ifs at htr ⊢ <;> simp_all
    case ALERT =>
      rw [loopStep_run_ALERT m i hrun hss] at htr ⊢
      rw [stepALERT_state] at htr
      rw [stepALERT_tilt]
      split_ifs at htr ⊢ <;> simp_all
    case ANGRY =>
      rw [loopStep_run_ANGRY m i hrun hss] at htr ⊢
      dsimp only at htr ⊢
      rw [stepANGRY_state] at htr
      rw [stepANGRY_tilt]
      split_ifs at htr ⊢ <;> simp_all
    case COOLDOWN =>
      rw [loopStep_run_COOLDOWN m i hrun hss] at htr ⊢
      rw [stepCOOLDOWN_state] at htr
      rw [stepCOOLDOWN_tilt]
      split_ifs at htr ⊢ <;> simp_all
    case REWARD =>
      rw [loopStep_run_REWARD m i hrun hss] at htr ⊢
      rw [stepREWARD_state] at htr
      rw [stepREWARD_tilt]
      split_ifs at htr ⊢ <;> simp_all
    case LOCKED =>
      rw [loopStep_run_LOCKED m i hrun hss] at htr ⊢
      dsimp only at htr ⊢
      rw [stepLOCKED_state] at htr
      rw [stepLOCKED_tilt]
      split_ifs at htr ⊢ <;> simp_all

/-- C8 witness: the concrete `IDLE → ALERT` transition of the test run
resets the detector, and the concrete firing poll of the C7 witness
satisfies the 14 ms debounce bound. -/
theorem tilt_reset_on_entry_witness :
    (loopStep mW3 (inW 3100 true)).1.tilt = TiltEdge.reset true 3100 ∧
    TiltEdge.reset true 3100 =
      { lastRawAct := true, changedAt := 3100, armed := false,
        inactiveSince := 0 } ∧
    (if State.ALERT = State.IDLE then TILT_DB_IDLE_MS else TILT_DB_OTHER_MS) ≤
      20 - (⟨true, 0, true, 0⟩ : TiltEdge).changedAt ∧
    (⟨true, 0, true, 0⟩ : TiltEdge).lastRawAct = true ∧
    (TiltEdge.event (TiltEdge.reset false 0) State.IDLE 50 true).1 = false :=
  tilt_reset_on_entry mW3 (inW 3100 true) (by decide)
    ⟨true, 0, true, 0⟩ State.ALERT 20 true (by decide) false 0 State.IDLE 50 true

/-- C10: the RNG state of every reachable machine is a nonzero 32-bit value:
the boot seed `0xA5A5A5A5 ^ (a << 16) ^ b` built from two 10-bit analog
readings is nonzero (the readings only touch bits 0–25, so every bit from
26 up — in particular bits 26–31 — agrees with `0xA5A5A5A5`), and the
xorshift32 update maps every nonzero 32-bit state to a nonzero 32-bit
state, so message selection never degenerates to the fixed point 0. -/
theorem rng_never_zero (m : Machine) (t0 : Nat) (h : Reach m t0)
    (a b : Nat) (ha : a ≤ 1023) (hb : b ≤ 1023) :
    m.rngState ≠ 0 ∧ m.rngState < U32 ∧
    bootSeed a b ≠ 0 ∧
    (∀ j, 26 ≤ j → (bootSeed a b).testBit j = (0xA5A5A5A5 : Nat).testBit j) ∧
    (∀ x, x ≠ 0 → x < U32 → rngStep x ≠ 0 ∧ rngStep x < U32) := by
  obtain ⟨_, _, _, _, h5, h6⟩ := reach_inv h
  exact ⟨h5, h6, bootSeed_ne_zero a b ha hb, bootSeed_testBit a b ha hb,
    fun x hx hlt => ⟨rngStep_ne_zero hlt hx, rngStep_lt hlt⟩⟩

/-- C10 witness: at the boot machine, top bit of the seed for readings
`(0, 0)`, and one concrete xorshift32 step. -/
theorem rng_never_zero_witness :
    mW0.rngState ≠ 0 ∧
    (bootSeed 0 0).testBit 31 = (0xA5A5A5A5 : Nat).testBit 31 ∧
    rngStep 1 ≠ 0 :=
  ⟨(rng_never_zero mW0 0 (Reach.boot 0 0 false 0 (by decide) (by decide)) 0 0
      (by decide) (by decide)).1,
    (rng_never_zero mW0 0 (Reach.boot 0 0 false 0 (by decide) (by decide)) 0 0
        (by decide) (by decide)).2.2.2.1 31 (by decide),
    ((rng_never_zero mW0 0 (Reach.boot 0 0 false 0 (by decide) (by decide)) 0 0
        (by decide) (by decide)).2.2.2.2 1 (by decide) (by decide)).1⟩

/-! ## Serial output of each `switch` arm -/

theorem stepIDLE_serial (m : Machine) (i : Inputs) (t : Bool) (pat : Nat) :
    (stepIDLE m i t pat).2.filter isSerial =
      if t = true then
        [Out.human State.ALERT
            (pick3 (rngStep m.rngState) "careful." "i felt that." "easy."),
          Out.stat State.ALERT m.anger pat]
      else if elapsed i.now m.enteredAt pat then
        [Out.human State.REWARD (compliment (rngStep m.rngState)),
          Out.stat State.REWARD m.anger pat]
      else [] := by
  simp only [stepIDLE]
  split_ifs <;> simp

theorem stepALERT_serial (m : Machine) (i : Inputs) (t p : Bool) (pat : Nat) :
    (stepALERT m i t p pat).2.filter isSerial =
      if t = true then
        [Out.human State.ANGRY
            (pick3 (rngStep m.rngState) "wrong move." "again? unfortunate." "you insist."),
          Out.stat State.ANGRY
            (if m.anger < MAX_ANGER then m.anger + 1 else m.anger) pat]
      else if p = true then
        [Out.human State.IDLE
            (pick3 (rngStep m.rngState) "noted." "acknowledged." "good."),
          Out.stat State.IDLE m.anger pat]
      else if elapsed i.now m.enteredAt ALERT_TIMEOUT_MS then
        [Out.human State.IDLE
            (pick3 (rngStep m.rngState) "stand down." "resetting." "idle."),
          Out.stat State.IDLE m.anger pat]
      else [] := by
  simp only [stepALERT]
  split_ifs <;> simp

theorem stepCOOLDOWN_serial (m : Machine) (i : Inputs) (t : Bool) (pat : Nat) :
    (stepCOOLDOWN m i t pat).2.filter isSerial =
      if t = true then
        [Out.human State.ANGRY
            (pick3 (rngStep m.rngState) "no." "not again." "wrong."),
          Out.stat State.ANGRY
            (if m.anger < MAX_ANGER then m.anger + 1 else m.anger) pat]
      else if elapsed i.now m.enteredAt COOLDOWN_MS then
        [Out.human State.IDLE
            (pick3 (rngStep m.rngState) "returning." "idle." "reset."),
          Out.stat State.IDLE m.anger pat]
      else [] := by
  simp only [stepCOOLDOWN]
  split_ifs <;> simp

theorem stepREWARD_serial (m : Machine) (i : Inputs) (t : Bool) (pat : Nat) :
    (stepREWARD m i t pat).2.filter isSerial =
      if t = true then
        [Out.human State.ALERT
            (pick3 (rngStep m.rngState) "easy." "careful." "i noticed."),
          Out.stat State.ALERT m.anger pat]
      else if elapsed i.now m.enteredAt REWARD_MS then
        [Out.human State.IDLE
            (pick3 (rngStep m.rngState) "cycle complete." "done." "idle."),
          Out.stat State.IDLE m.anger pat]
      else [] := by
  simp only [stepREWARD]
  split_ifs <;> simp

theorem stepLOCKED_serial (m : Machine) (i : Inputs) (pat : Nat) :
    (stepLOCKED m i pat).2.filter isSerial =
      if i.btnHigh = false ∧
          elapsed i.now (if m.holdAt = 0 then i.now else m.holdAt) 2000 then
        [Out.human State.IDLE
            (pick3 (rngStep m.rngState) "mercy granted." "one more chance." "reset."),
          Out.stat State.IDLE 0 pat]
      else [] := by
  rw [stepLOCKED_snd]
  split_ifs <;> simp [isSerial, baseLeds, List.filter_cons]

theorem stepANGRY_serial (m : Machine) (i : Inputs) (t : Bool) (pat : Nat) :
    (stepANGRY m i t pat).2.filter isSerial =
      (if t = true then
        [Out.human State.ANGRY
            (pick3 (rngStep m.rngState) "stop." "enough." "do not.")]
      else []) ++
      (if MAX_ANGER ≤ (if t = true then
              (if m.anger < MAX_ANGER then m.anger + 1 else m.anger)
            else m.anger) ∧
          elapsed i.now m.enteredAt 1200 then
        [Out.human State.LOCKED
            (pick3 (rngStep (if t = true then rngStep m.rngState else m.rngState))
              "access revoked." "you are done." "locked."),
          Out.stat State.LOCKED
            (if t = true then (if m.anger < MAX_ANGER then m.anger + 1 else m.anger)
              else m.anger) pat]
      else if elapsed i.now m.enteredAt ANGRY_CALM_MS then
        [Out.human State.COOLDOWN
            (pick3 (rngStep (if t = true then rngStep m.rngState else m.rngState))
              "cool down." "steady." "watch yourself."),
          Out.stat State.COOLDOWN
            (if (if t = true then (if m.anger < MAX_ANGER then m.anger + 1 else m.anger)
                  else m.anger) ≠ 0 then
              (if t = true then (if m.anger < MAX_ANGER then m.anger + 1 else m.anger)
                else m.anger) - 1
            else
              (if t = true then (if m.anger < MAX_ANGER then m.anger + 1 else m.anger)
                else m.anger)) pat]
      else []) := by
  cases t <;> simp only [stepANGRY] <;> split_ifs <;> simp_all [isSerial]

/-- C6 counterexample: the boot entry into `IDLE` performed by `setup()`
emits the telemetry pair `[IDLE] ... / @STAT state=IDLE anger=0
patienceMs=0`, and its `patienceMs = 0` is outside the claimed inclusive
range `[5000, 20000]`. -/
theorem boot_stat_patience_out_of_range :
    (setup 0 0 false 0).2.filter isSerial =
      [Out.human State.IDLE "stillness acknowledged.",
        Out.stat State.IDLE 0 0] ∧
    ¬ IDLE_REWARD_MIN_MS ≤ (0 : Nat) := by
  constructor
  · rfl
  · decide

set_option maxHeartbeats 1600000 in
/-- C6 (amended): every state entry emits exactly one human-readable
`[<STATE>] <msg>` line immediately followed by exactly one
`@STAT state=<STATE> anger=<n> patienceMs=<p>` line, where the state and
anger are the post-transition values; for every entry performed by a
`loop()` transition, `patienceMs` is this tick's potentiometer-derived
window and lies in `[5000, 20000]`; the boot entry performed by `setup()`
instead reports `patienceMs = 0`. The `@STAT` line is emitted once per
transition and never outside one: a non-transition tick emits either no
serial line or (`ANGRY` tilt rebuke) a single human line, and the only
serial line that may precede a transition's pair is that same rebuke. -/
theorem telemetry_per_entry (m : Machine) (i : Inputs) (hpot : i.pot ≤ 1023)
    (a b : Nat) (act : Bool) (tb : Nat) :
    ((loopStep m i).1.state ≠ m.state →
      ∃ pre msg, (loopStep m i).2.filter isSerial =
          pre ++ [Out.human (loopStep m i).1.state msg,
            Out.stat (loopStep m i).1.state (loopStep m i).1.anger
              (patienceOf i.pot)] ∧
        (pre = [] ∨ ∃ msg2, pre = [Out.human State.ANGRY msg2]) ∧
        IDLE_REWARD_MIN_MS ≤ patienceOf i.pot ∧
        patienceOf i.pot ≤ IDLE_REWARD_MAX_MS) ∧
    ((loopStep m i).1.state = m.state →
      (loopStep m i).2.filter isSerial = [] ∨
        ∃ msg2, (loopStep m i).2.filter isSerial = [Out.human State.ANGRY msg2]) ∧
    (∃ msg0, (setup a b act tb).2.filter isSerial =
      [Out.human State.IDLE msg0, Out.stat State.IDLE 0 0]) := by
  have hsetup : ∃ msg0, (setup a b act tb).2.filter isSerial =
      [Out.human State.IDLE msg0, Out.stat State.IDLE 0 0] :=
    ⟨"stillness acknowledged.", by simp [setup, isSerial]⟩
  have hlo := patienceOf_range hpot
  by_cases hrun : tickRuns m i
  case neg =>
    rw [loopStep_guard_fail m i hrun]
    exact ⟨fun hne => absurd rfl hne, fun _ => Or.inl rfl, hsetup⟩
  case pos =>
  cases hss : m.state
  case IDLE =>
    rw [loopStep_run_IDLE m i hrun hss]
    rw [stepIDLE_serial, stepIDLE_state, stepIDLE_anger]
    refine ⟨?_, ?_, hsetup⟩
    · intro hne
      split_ifs at hne ⊢ <;>
        first
          | (refine ⟨[], pick3 (rngStep m.rngState) "careful." "i felt that." "easy.",
                ?_, Or.inl rfl, hlo.1, hlo.2⟩; simp; done)
          | (refine ⟨[], compliment (rngStep m.rngState),
                ?_, Or.inl rfl, hlo.1, hlo.2⟩; simp; done)
          | simp [hss] at hne
    · intro heq
      split_ifs at heq ⊢ <;>
        first
          | exact Or.inl rfl
          | (refine absurd heq ?_; decide)
  case ALERT =>
    rw [loopStep_run_ALERT m i hrun hss]
    rw [stepALERT_serial, stepALERT_state, stepALERT_anger]
    refine ⟨?_, ?_, hsetup⟩
    · intro hne
      split_ifs at hne ⊢ <;>
        first
          | (refine ⟨[], pick3 (rngStep m.rngState) "wrong move." "again? unfortunate." "you insist.",
                ?_, Or.inl rfl, hlo.1, hlo.2⟩; simp; done)
          | (refine ⟨[], pick3 (rngStep m.rngState) "noted." "acknowledged." "good.",
                ?_, Or.inl rfl, hlo.1, hlo.2⟩; simp; done)
          | (refine ⟨[], pick3 (rngStep m.rngState) "stand down." "resetting." "idle.",
                ?_, Or.inl rfl, hlo.1, hlo.2⟩; simp; done)
          | simp [hss] at hne
    · intro heq
      split_ifs at heq ⊢ <;>
        first
          | exact Or.inl rfl
          | (refine absurd heq ?_; decide)
  case COOLDOWN =>
    rw [loopStep_run_COOLDOWN m i hrun hss]
    rw [stepCOOLDOWN_serial, stepCOOLDOWN_state, stepCOOLDOWN_anger]
    refine ⟨?_, ?_, hsetup⟩
    · intro hne
      split_ifs at hne ⊢ <;>
        first
          | (refine ⟨[], pick3 (rngStep m.rngState) "no." "not again." "wrong.",
                ?_, Or.inl rfl, hlo.1, hlo.2⟩; simp; done)
          | (refine ⟨[], pick3 (rngStep m.rngState) "returning." "idle." "reset.",
                ?_, Or.inl rfl, hlo.1, hlo.2⟩; simp; done)
          | simp [hss] at hne
    · intro heq
      split_ifs at heq ⊢ <;>
        first
          | exact Or.inl rfl
          | (refine absurd heq ?_; decide)
  case REWARD =>
    rw [loopStep_run_REWARD m i hrun hss]
    rw [stepREWARD_serial, stepREWARD_state, stepREWARD_anger]
    refine ⟨?_, ?_, hsetup⟩
    · intro hne
      split_ifs at hne ⊢ <;>
        first
          | (refine ⟨[], pick3 (rngStep m.rngState) "easy." "careful." "i noticed.",
                ?_, Or.inl rfl, hlo.1, hlo.2⟩; simp; done)
          | (refine ⟨[], pick3 (rngStep m.rngState) "cycle complete." "done." "idle.",
                ?_, Or.inl rfl, hlo.1, hlo.2⟩; simp; done)
          | simp [hss] at hne
    · intro heq
      split_ifs at heq ⊢ <;>
        first
          | exact Or.inl rfl
          | (refine absurd heq ?_; decide)
  case LOCKED =>
    rw [loopStep_run_LOCKED m i hrun hss]
    dsimp only
    rw [List.filter_cons_of_neg (by simp [isSerial]),
      stepLOCKED_serial, stepLOCKED_state, stepLOCKED_anger]
    refine ⟨?_, ?_, hsetup⟩
    · intro hne
      split_ifs at hne ⊢ <;>
        first
          | (refine ⟨[], pick3 (rngStep m.rngState) "mercy granted." "one more chance." "reset.",
                ?_, Or.inl rfl, hlo.1, hlo.2⟩; simp [isSerial]; done)
          | simp [hss] at hne
    · intro heq
      split_ifs at heq ⊢ <;>
        first
          | exact Or.inl (by simp [isSerial])
          | (refine absurd heq ?_; decide)
  case ANGRY =>
    rw [loopStep_run_ANGRY m i hrun hss]
    dsimp only
    rw [List.filter_append, angryEffectsTick_serial, List.nil_append,
      stepANGRY_serial, stepANGRY_state, stepANGRY_anger]
    cases htl : (m.tilt.event m.state i.now i.tiltAct).1
    case false =>
      refine ⟨?_, ?_, hsetup⟩
      · intro hne
        simp only [Bool.false_eq_true, if_false, List.nil_append,
          List.filter_append, angryEffectsTick_serial] at hne ⊢
        split_ifs at hne ⊢ <;>
          first
            | (refine ⟨[], pick3 (rngStep m.rngState) "access revoked." "you are done." "locked.",
                  ?_, Or.inl rfl, hlo.1, hlo.2⟩; simp; done)
            | (refine ⟨[], pick3 (rngStep m.rngState) "cool down." "steady." "watch yourself.",
                  ?_, Or.inl rfl, hlo.1, hlo.2⟩; simp; done)
            | simp [hss] at hne
      · intro heq
        simp only [Bool.false_eq_true, if_false, List.nil_append,
          List.filter_append, angryEffectsTick_serial] at heq ⊢
        split_ifs at heq ⊢ <;>
          first
            | exact Or.inl rfl
            | (refine absurd heq ?_; decide)
    case true =>
      refine ⟨?_, ?_, hsetup⟩
      · intro hne
        simp only [if_pos rfl, List.filter_append, angryEffectsTick_serial,
          List.nil_append] at hne ⊢
        split_ifs at hne ⊢ <;>
          first
            | (refine ⟨[Out.human State.ANGRY
                    (pick3 (rngStep m.rngState) "stop." "enough." "do not.")],
                  pick3 (rngStep (rngStep m.rngState)) "access revoked." "you are done." "locked.",
                  ?_,
                  Or.inr ⟨pick3 (rngStep m.rngState) "stop." "enough." "do not.", rfl⟩,
                  hlo.1, hlo.2⟩; simp; done)
            | (refine ⟨[Out.human State.ANGRY
                    (pick3 (rngStep m.rngState) "stop." "enough." "do not.")],
                  pick3 (rngStep (rngStep m.rngState)) "cool down." "steady." "watch yourself.",
                  ?_,
                  Or.inr ⟨pick3 (rngStep m.rngState) "stop." "enough." "do not.", rfl⟩,
                  hlo.1, hlo.2⟩; simp; done)
            | simp [hss] at hne
      · intro heq
        simp only [if_pos rfl, List.filter_append, angryEffectsTick_serial,
          List.nil_append] at heq ⊢
        split_ifs at heq ⊢ <;>
          first
            | exact Or.inr ⟨pick3 (rngStep m.rngState) "stop." "enough." "do not.",
                by simp⟩
            | (refine absurd heq ?_; decide)

/-- C6 (amended) witness: the concrete `IDLE → ALERT` transition of the test
run, together with the boot emission for readings `(0, 0)`. -/
theorem telemetry_per_entry_witness :
    ((loopStep mW3 (inW 3100 true)).1.state ≠ mW3.state →
      ∃ pre msg, (loopStep mW3 (inW 3100 true)).2.filter isSerial =
          pre ++ [Out.human (loopStep mW3 (inW 3100 true)).1.state msg,
            Out.stat (loopStep mW3 (inW 3100 true)).1.state
              (loopStep mW3 (inW 3100 true)).1.anger
              (patienceOf (inW 3100 true).pot)] ∧
        (pre = [] ∨ ∃ msg2, pre = [Out.human State.ANGRY msg2]) ∧
        IDLE_REWARD_MIN_MS ≤ patienceOf (inW 3100 true).pot ∧
        patienceOf (inW 3100 true).pot ≤ IDLE_REWARD_MAX_MS) ∧
    ((loopStep mW3 (inW 3100 true)).1.state = mW3.state →
      (loopStep mW3 (inW 3100 true)).2.filter isSerial = [] ∨
        ∃ msg2, (loopStep mW3 (inW 3100 true)).2.filter isSerial =
          [Out.human State.ANGRY msg2]) ∧
    (∃ msg0, (setup 0 0 false 0).2.filter isSerial =
      [Out.human State.IDLE msg0, Out.stat State.IDLE 0 0]) :=
  telemetry_per_entry mW3 (inW 3100 true) (by decide) 0 0 false 0

end Sentinel
